import Mathlib

/-!
Verification of the Guardian tiered approval engine (openclaw).

Shallow embedding of:
- `src/src/infra/guardian/rules.ts` (risk classifier, rule matcher, threshold policy)
- `src/src/infra/guardian/llm-evaluator.ts` (Tier-2 adjudicator parsing)
- budget tracker (`budget.ts`) and the guardian hook orchestrator (`hook.ts`)
- `src/src/gateway/guardian-approval-manager.ts` and its request handler

JavaScript primitives that the code treats as opaque (the RegExp engine for
user-supplied rule patterns, `randomUUID`, the LLM call, timers) are modelled
as explicit parameters / oracles.  JavaScript exceptions are modelled with
`Except`; machine floats (budget costs) are modelled as rationals.
-/

-- ─── JS values and defensive stringification ──────────────────────────────────

/-- Model of a JavaScript runtime value as found in a tool-call parameter map.
`vCircular` stands for a cyclic plain object, on which `JSON.stringify` throws
a `TypeError`. -/
inductive JSValue where
  | vStr (s : String)
  | vNum (n : Int)
  | vBool (b : Bool)
  | vNull
  | vUndefined
  | vArr (elems : List JSValue)
  | vObj (fields : List (String × JSValue))
  | vCircular
deriving Repr, Inhabited

/-- A JavaScript exception. -/
inductive JSError where
  | typeError (msg : String)
deriving Repr, DecidableEq

def quoteChar : Char := Char.ofNat 34

def backslashChar : Char := Char.ofNat 92

/-- JSON string escaping as performed by `JSON.stringify` (ASCII fragment). -/
def jsonEscapeChar (c : Char) : List Char :=
  if c = quoteChar then [backslashChar, quoteChar]
  else if c = backslashChar then [backslashChar, backslashChar]
  else if c = Char.ofNat 10 then [backslashChar, Char.ofNat 110]
  else if c = Char.ofNat 13 then [backslashChar, Char.ofNat 114]
  else if c = Char.ofNat 9 then [backslashChar, Char.ofNat 116]
  else [c]

def jsonQuote (s : String) : String :=
  String.mk ([quoteChar] ++ (s.data.flatMap jsonEscapeChar) ++ [quoteChar])

/-- Fueled model of `JSON.stringify`.  `none` models a throw: a cyclic value
(`TypeError: Converting circular structure to JSON`) or fuel exhaustion
(the stack-overflow `RangeError` of the engine on pathologically deep values). -/
def jstringifyF : Nat → JSValue → Option String
  | _, .vStr s => some (jsonQuote s)
  | _, .vNum n => some (toString n)
  | _, .vBool b => some (if b then "true" else "false")
  | _, .vNull => some "null"
  | _, .vUndefined => some "undefined"
  | _, .vCircular => none
  | 0, .vArr _ => none
  | 0, .vObj _ => none
  | f + 1, .vArr es =>
      (jstringifyElems f es).map (fun parts => "[" ++ String.intercalate "," parts ++ "]")
  | f + 1, .vObj fs =>
      (jstringifyFields f fs).map
        (fun parts => "\x7b" ++ String.intercalate "," parts ++ "\x7d")
where
  jstringifyElems (f : Nat) : List JSValue → Option (List String)
    | [] => some []
    | .vUndefined :: vs => (jstringifyElems f vs).map (fun rest => "null" :: rest)
    | v :: vs =>
        match jstringifyF f v, jstringifyElems f vs with
        | some s, some rest => some (s :: rest)
        | _, _ => none
  jstringifyFields (f : Nat) : List (String × JSValue) → Option (List String)
    | [] => some []
    | (_, .vUndefined) :: fs => jstringifyFields f fs
    | (k, v) :: fs =>
        match jstringifyF f v, jstringifyFields f fs with
        | some s, some rest => some ((jsonQuote k ++ ":" ++ s) :: rest)
        | _, _ => none

def jstringify (v : JSValue) : Option String := jstringifyF 10000 v

/-- Model of JavaScript `String(v)` for the defensive fallback paths (reached
only after `JSON.stringify` threw, i.e. on a cyclic plain object). -/
def jsToString (v : JSValue) : String :=
  match v with
  | .vStr s => s
  | .vNum n => toString n
  | .vBool b => if b then "true" else "false"
  | .vNull => "null"
  | .vUndefined => "undefined"
  | .vCircular => "[object Object]"
  | .vObj _ => "[object Object]"
  | .vArr _ => ""

/-- `typeof v === "string" ? v : JSON.stringify(v)` as used by
`checkParamEscalations` and `matchRule` in rules.ts — the stringify is NOT
wrapped in try/catch there, so a throw propagates (`.error`). -/
def stringifyParamE (v : JSValue) : Except JSError String :=
  match v with
  | .vStr s => .ok s
  | _ =>
      match jstringify v with
      | some s => .ok s
      | none => .error (.typeError "Converting circular structure to JSON")

def lookupParam (params : List (String × JSValue)) (key : String) : Option JSValue :=
  (params.find? (fun p => p.1 == key)).map (fun p => p.2)

/-- JS `String.prototype.toLowerCase` (ASCII fragment). -/
def jsToLowerStr (s : String) : String := String.mk (s.data.map Char.toLower)

/-- Whitespace trimmed by JS `String.prototype.trim` (ASCII fragment). -/
def isJsTrimWs (c : Char) : Bool :=
  (c == Char.ofNat 32) || (c == Char.ofNat 9) || (c == Char.ofNat 10) ||
  (c == Char.ofNat 11) || (c == Char.ofNat 12) || (c == Char.ofNat 13)

/-- JS `String.prototype.trim`. -/
def jsTrimStr (s : String) : String :=
  String.mk (((s.data.dropWhile isJsTrimWs).reverse.dropWhile isJsTrimWs).reverse)

/-- Lexicographic order on character lists (by code point). -/
def charListLe : List Char → List Char → Bool
  | [], _ => true
  | _ :: _, [] => false
  | c :: cs, d :: ds => if c = d then charListLe cs ds else decide (c < d)

def strLeB (a b : String) : Bool := charListLe a.data b.data

-- ─── Risk and trust levels (rules.ts) ─────────────────────────────────────────

inductive RiskLevel where
  | low | medium | high | critical
deriving Repr, BEq, DecidableEq, Inhabited

inductive TrustLevel where
  | owner | allowed | unknown | subagent
deriving Repr, BEq, DecidableEq, Inhabited

def riskOrder : RiskLevel → Nat
  | .low => 0
  | .medium => 1
  | .high => 2
  | .critical => 3

def trustOrder : TrustLevel → Nat
  | .owner => 3
  | .allowed => 2
  | .unknown => 1
  | .subagent => 0

def riskName : RiskLevel → String
  | .low => "low"
  | .medium => "medium"
  | .high => "high"
  | .critical => "critical"

def riskAtLeast (level threshold : RiskLevel) : Bool :=
  decide (riskOrder threshold ≤ riskOrder level)

def maxRisk (a b : RiskLevel) : RiskLevel :=
  if riskOrder b ≤ riskOrder a then a else b

def trustAtLeast (level min : TrustLevel) : Bool :=
  decide (trustOrder min ≤ trustOrder level)

/-- `resolveTrustLevel` from rules.ts; `Option Bool` models the optional
boolean flags, with JS truthiness (`some true` is the only truthy case). -/
def resolveTrustLevel (senderIsOwner isSubagent isAllowed : Option Bool) : TrustLevel :=
  if senderIsOwner = some true then .owner
  else if isSubagent = some true then .subagent
  else if isAllowed = some true then .allowed
  else .unknown

/-- Modelled from the spec: `normalizeToolName` (src/agents/tool-policy.ts) is
imported by rules.ts and hook.ts but its source is not in the provided tree;
the spec describes the classifier input as a "normalized (trimmed, case-folded)
tool name". -/
def normalizeToolName (s : String) : String := jsToLowerStr (jsTrimStr s)

-- ─── Built-in risk defaults (TOOL_RISK_DEFAULTS) ──────────────────────────────

def TOOL_RISK_DEFAULTS : List (String × RiskLevel) :=
  [ ("read", .low), ("memory_search", .low), ("memory_get", .low),
    ("web_search", .low), ("web_fetch", .low), ("session_status", .low),
    ("sessions_list", .low), ("sessions_history", .low), ("agents_list", .low),
    ("image", .low),
    ("write", .medium), ("edit", .medium), ("apply_patch", .medium),
    ("message", .medium), ("browser", .medium), ("canvas", .medium),
    ("cron", .medium), ("nodes", .medium),
    ("exec", .high), ("process", .high), ("sessions_send", .high),
    ("sessions_spawn", .high),
    ("gateway", .critical), ("whatsapp_login", .critical) ]

def getBaseRisk (toolName : String) : RiskLevel :=
  ((TOOL_RISK_DEFAULTS.find? (fun p => p.1 == toolName)).map (fun p => p.2)).getD .medium

-- ─── Built-in parameter escalation patterns (PARAM_ESCALATIONS) ───────────────

/-- One token of a built-in escalation regex: a literal run, a `\s+` run, or a
`[a-z]` character class. -/
inductive PatTok where
  | lit (cs : List Char)
  | ws1
  | lowerAlpha
deriving Repr, DecidableEq

def litP (s : String) : PatTok := .lit s.data

/-- JS `\s` (ASCII fragment: space, tab, LF, VT, FF, CR). -/
def isJsWs (c : Char) : Bool :=
  (c == Char.ofNat 32) || (c == Char.ofNat 9) || (c == Char.ofNat 10) ||
  (c == Char.ofNat 11) || (c == Char.ofNat 12) || (c == Char.ofNat 13)

def litMatch : List Char → List Char → Option (List Char)
  | [], rest => some rest
  | _ :: _, [] => none
  | c :: cs, d :: ds => if c == d then litMatch cs ds else none

/-- Suffixes of `l` reachable by consuming zero or more whitespace characters
(the backtracking choices of the tail of a `\s+`). -/
def wsSufs : List Char → List (List Char)
  | [] => [[]]
  | c :: l => (c :: l) :: (if isJsWs c then wsSufs l else [])

/-- Match a token sequence at the start of the input, with the backtracking
semantics of the corresponding regex. -/
def matchToks : List PatTok → List Char → Bool
  | [], _ => true
  | .lit cs :: rest, l =>
      match litMatch cs l with
      | some l2 => matchToks rest l2
      | none => false
  | .ws1 :: _, [] => false
  | .ws1 :: rest, c :: l => isJsWs c && ((wsSufs l).any fun l2 => matchToks rest l2)
  | .lowerAlpha :: _, [] => false
  | .lowerAlpha :: rest, c :: l =>
      (Char.ofNat 97 ≤ c && c ≤ Char.ofNat 122) && matchToks rest l

/-- Match an alternative at any position (unanchored regex search). -/
def matchToksAnywhere (toks : List PatTok) : List Char → Bool
  | [] => matchToks toks []
  | c :: l => matchToks toks (c :: l) || matchToksAnywhere toks l

/-- Case-insensitive test of an alternation of token patterns against a string
(the built-in escalation regexes all carry the `i` flag and use only
lower-case literals, `\s+` and `[a-z]`). -/
def patTest (alts : List (List PatTok)) (s : String) : Bool :=
  alts.any (fun a => matchToksAnywhere a (s.data.map Char.toLower))

structure ParamEscalation where
  tool : String
  paramKey : String
  pattern : List (List PatTok)
  escalateTo : RiskLevel
  label : String

/-- `/(?:config|\.env|secret|credential|\.ssh|\.gnupg)/i` -/
def sensitivePathPat : List (List PatTok) :=
  [[litP "config"], [litP ".env"], [litP "secret"], [litP "credential"],
   [litP ".ssh"], [litP ".gnupg"]]

/-- `/(?:rm\s+-rf|DROP\s+TABLE|DELETE\s+FROM|TRUNCATE\s+TABLE|mkfs|dd\s+if=|format\s+[a-z]:|shutdown|reboot)/i` -/
def destructiveCmdPat : List (List PatTok) :=
  [ [litP "rm", .ws1, litP "-rf"],
    [litP "drop", .ws1, litP "table"],
    [litP "delete", .ws1, litP "from"],
    [litP "truncate", .ws1, litP "table"],
    [litP "mkfs"],
    [litP "dd", .ws1, litP "if="],
    [litP "format", .ws1, .lowerAlpha, litP ":"],
    [litP "shutdown"],
    [litP "reboot"] ]

/-- `/broadcast/i` -/
def broadcastPat : List (List PatTok) := [[litP "broadcast"]]

/-- The built-in table only uses string tool matchers (no RegExp entries). -/
def PARAM_ESCALATIONS : List ParamEscalation :=
  [ { tool := "write", paramKey := "path", pattern := sensitivePathPat,
      escalateTo := .critical, label := "write to sensitive path" },
    { tool := "edit", paramKey := "path", pattern := sensitivePathPat,
      escalateTo := .critical, label := "edit sensitive path" },
    { tool := "exec", paramKey := "command", pattern := destructiveCmdPat,
      escalateTo := .critical, label := "destructive command" },
    { tool := "message", paramKey := "action", pattern := broadcastPat,
      escalateTo := .critical, label := "broadcast message" } ]

structure EscalationHit where
  risk : RiskLevel
  label : String
deriving Repr, DecidableEq

/-- The loop body of `checkParamEscalations`.  The stringification of a
non-string parameter value is not guarded, so it can throw (`.error`). -/
def checkEscListE : List ParamEscalation → String → List (String × JSValue) →
    Except JSError (Option EscalationHit)
  | [], _, _ => .ok none
  | esc :: rest, toolName, params =>
      if esc.tool == toolName then
        match lookupParam params esc.paramKey with
        | none => checkEscListE rest toolName params
        | some .vUndefined => checkEscListE rest toolName params
        | some .vNull => checkEscListE rest toolName params
        | some v =>
            match stringifyParamE v with
            | .error e => .error e
            | .ok str =>
                if patTest esc.pattern str then .ok (some ⟨esc.escalateTo, esc.label⟩)
                else checkEscListE rest toolName params
      else checkEscListE rest toolName params

def checkParamEscalationsE (toolName : String) (toolParams : List (String × JSValue)) :
    Except JSError (Option EscalationHit) :=
  checkEscListE PARAM_ESCALATIONS toolName toolParams

-- ─── Glob matching (rules.ts globMatch) ───────────────────────────────────────

def starChar : Char := Char.ofNat 42

def qmarkChar : Char := Char.ofNat 63

/-- Fueled anchored glob matcher: `*` matches any run, `?` one character, all
other characters literally (the source escapes them before building its
regex).  Fuel exceeds the sum of both lengths, so exhaustion is unreachable. -/
def globCharsF : Nat → List Char → List Char → Bool
  | 0, _, _ => false
  | _ + 1, [], l => l.isEmpty
  | f + 1, c :: ps, l =>
      if c == starChar then
        globCharsF f ps l ||
          (match l with
           | [] => false
           | _ :: l2 => globCharsF f (c :: ps) l2)
      else
        match l with
        | [] => false
        | d :: l2 => (c == qmarkChar || c == d) && globCharsF f ps l2

def globMatch (pattern value : String) : Bool :=
  if pattern == "*" then true
  else if !(pattern.data.any (fun c => c == starChar)) &&
      !(pattern.data.any (fun c => c == qmarkChar)) then
    pattern == value
  else
    globCharsF (pattern.length + value.length + 1) pattern.data value.data

-- ─── Rules (GuardianRule, matchRule, evaluateRules) ───────────────────────────

inductive RuleAction where
  | allow | deny | escalate
deriving Repr, BEq, DecidableEq, Inhabited

structure GuardianRule where
  id : Option String := none
  tool : Option String := none
  paramMatches : Option (List (String × String)) := none
  minTrust : Option TrustLevel := none
  riskLevel : Option RiskLevel := none
  action : Option RuleAction := none
  label : Option String := none
deriving Repr, DecidableEq, Inhabited

structure GuardianRuleResult where
  decision : RuleAction
  riskLevel : RiskLevel
  trustLevel : TrustLevel
  reason : Option String
  ruleLabel : Option String := none
deriving Repr, DecidableEq, Inhabited

/-- Model of the JavaScript RegExp primitive for user-configured rule
patterns: `eng pat str` is `new RegExp(pat, "i").test(str)`; `none` models
the constructor throwing on an invalid pattern. -/
abbrev RegexEngine := String → String → Option Bool

/-- JS `String.prototype.includes` (the invalid-regex fallback). -/
def hasSubstr : List Char → List Char → Bool
  | l, sub => (litMatch sub l).isSome ||
      (match l with
       | [] => false
       | _ :: l2 => hasSubstr l2 sub)

def strIncludes (s sub : String) : Bool := hasSubstr s.data sub.data

def regexOrSubstring (eng : RegexEngine) (pat str : String) : Bool :=
  match eng pat str with
  | some b => b
  | none => strIncludes str pat

/-- JS truthiness of an optional string (empty string is falsy). -/
def truthyOptStr : Option String → Bool
  | some s => !(s == "")
  | none => false

/-- The `paramMatches` loop of `matchRule`: every declared key must exist
(missing/null fails the rule) and its stringified value must pass the
pattern; the stringification is unguarded and can throw. -/
def paramPairsE : List (String × String) → List (String × JSValue) → RegexEngine →
    Except JSError Bool
  | [], _, _ => .ok true
  | (key, pat) :: rest, params, eng =>
      match lookupParam params key with
      | none => .ok false
      | some .vUndefined => .ok false
      | some .vNull => .ok false
      | some v =>
          match stringifyParamE v with
          | .error e => .error e
          | .ok str =>
              if regexOrSubstring eng pat str then paramPairsE rest params eng
              else .ok false

def matchRuleE (rule : GuardianRule) (toolName : String)
    (toolParams : List (String × JSValue)) (trustLevel : TrustLevel)
    (eng : RegexEngine) : Except JSError Bool :=
  if truthyOptStr rule.tool && !globMatch (rule.tool.getD "") toolName then .ok false
  else if rule.minTrust.isSome && !trustAtLeast trustLevel (rule.minTrust.getD .owner) then
    .ok false
  else
    match rule.paramMatches with
    | none => .ok true
    | some pairs => paramPairsE pairs toolParams eng

/-- First matching rule of the concatenated list (`first match wins`). -/
def findMatchE : List GuardianRule → String → List (String × JSValue) → TrustLevel →
    RegexEngine → Except JSError (Option GuardianRule)
  | [], _, _, _, _ => .ok none
  | r :: rest, tn, ps, tr, eng =>
      match matchRuleE r tn ps tr eng with
      | .error e => .error e
      | .ok true => .ok (some r)
      | .ok false => findMatchE rest tn ps tr eng

/-- `a ?? b` on optional strings (nullish coalescing; empty string is kept). -/
def optOr (a b : Option String) : Option String :=
  match a with
  | some x => some x
  | none => b

/-- Risk computation head of `evaluateRules`: base risk possibly escalated by
the first matching parameter escalation. -/
def computeRiskE (toolName : String) (toolParams : List (String × JSValue)) :
    Except JSError (RiskLevel × Option String) :=
  match checkParamEscalationsE toolName toolParams with
  | .error e => .error e
  | .ok (some hit) => .ok (maxRisk (getBaseRisk toolName) hit.risk, some hit.label)
  | .ok none => .ok (getBaseRisk toolName, none)

/-- The record returned when a rule matched. -/
def ruleDecision (rule : GuardianRule) (riskLevel : RiskLevel)
    (escalationLabel : Option String) (trustLevel : TrustLevel) : GuardianRuleResult :=
  { decision := rule.action.getD .escalate
  , riskLevel :=
      match rule.riskLevel with
      | some rl => maxRisk riskLevel rl
      | none => riskLevel
  , trustLevel := trustLevel
  , reason := optOr escalationLabel (optOr rule.label
      (some ("matched rule: " ++ ((optOr rule.id (optOr rule.tool (some "*"))).getD "*"))))
  , ruleLabel := optOr rule.label rule.id }

def riskLevelsList : List RiskLevel := [.low, .medium, .high, .critical]

/-- Subagent threshold adjustment: `levels[RISK_ORDER[threshold] - 1]` when the
order is positive (the index is then in range, so the `getD` default is never
used). -/
def subagentAdjustedThreshold (threshold : RiskLevel) : RiskLevel :=
  if 0 < riskOrder threshold then riskLevelsList.getD (riskOrder threshold - 1) threshold
  else threshold

/-- The no-rule-matched tail of `evaluateRules`: owner bypass, subagent
threshold adjustment, then the risk/threshold comparison. -/
def thresholdDecision (riskLevel : RiskLevel) (escalationLabel : Option String)
    (threshold : RiskLevel) (trustLevel : TrustLevel) : GuardianRuleResult :=
  if trustLevel = .owner ∧ riskAtLeast riskLevel .critical = false then
    { decision := .allow, riskLevel := riskLevel, trustLevel := trustLevel
    , reason := some "owner bypass (risk below critical)" }
  else
    let adjusted :=
      if trustLevel = .subagent then subagentAdjustedThreshold threshold else threshold
    if riskAtLeast riskLevel adjusted then
      { decision := .escalate, riskLevel := riskLevel, trustLevel := trustLevel
      , reason := optOr escalationLabel
          (some ("risk " ++ riskName riskLevel ++ " >= threshold " ++ riskName adjusted)) }
    else
      { decision := .allow, riskLevel := riskLevel, trustLevel := trustLevel
      , reason := some ("risk " ++ riskName riskLevel ++ " < threshold " ++ riskName adjusted) }

/-- `evaluateRules` from rules.ts (agent rules first, then global; first match
wins; otherwise threshold policy). -/
def evaluateRulesE (rawToolName : String) (toolParams : List (String × JSValue))
    (globalRules agentRules : List GuardianRule) (threshold : RiskLevel)
    (trustLevel : TrustLevel) (eng : RegexEngine) : Except JSError GuardianRuleResult :=
  let toolName := normalizeToolName rawToolName
  match computeRiskE toolName toolParams with
  | .error e => .error e
  | .ok (riskLevel, escalationLabel) =>
      match findMatchE (agentRules ++ globalRules) toolName toolParams trustLevel eng with
      | .error e => .error e
      | .ok (some rule) => .ok (ruleDecision rule riskLevel escalationLabel trustLevel)
      | .ok none => .ok (thresholdDecision riskLevel escalationLabel threshold trustLevel)

-- ─── Tier 2: LLM adjudicator (llm-evaluator.ts) ───────────────────────────────

inductive LLMDecision where
  | allow | deny | escalate
deriving Repr, BEq, DecidableEq, Inhabited

structure GuardianLLMResult where
  decision : LLMDecision
  reason : Option String := none
deriving Repr, DecidableEq, Inhabited

/-- JSON values as produced by `JSON.parse`; numbers keep their lexeme (the
code never uses the value of a parsed number, only its type and truthiness). -/
inductive JsonV where
  | jNull
  | jBool (b : Bool)
  | jNum (lexeme : String)
  | jStr (s : String)
  | jArr (elems : List JsonV)
  | jObj (fields : List (String × JsonV))
deriving Repr, Inhabited

def braceOpen : Char := Char.ofNat 123

def braceClose : Char := Char.ofNat 125

def brackOpen : Char := Char.ofNat 91

def brackClose : Char := Char.ofNat 93

def commaChar : Char := Char.ofNat 44

def colonChar : Char := Char.ofNat 58

/-- JSON whitespace (space, tab, LF, CR). -/
def isJsonWs (c : Char) : Bool :=
  (c == Char.ofNat 32) || (c == Char.ofNat 9) || (c == Char.ofNat 10) || (c == Char.ofNat 13)

def skipJsonWs : List Char → List Char
  | [] => []
  | c :: l => if isJsonWs c then skipJsonWs l else c :: l

def hexDigitVal (c : Char) : Option Nat :=
  if Char.ofNat 48 ≤ c ∧ c ≤ Char.ofNat 57 then some (c.toNat - 48)
  else if Char.ofNat 97 ≤ c ∧ c ≤ Char.ofNat 102 then some (c.toNat - 87)
  else if Char.ofNat 65 ≤ c ∧ c ≤ Char.ofNat 70 then some (c.toNat - 55)
  else none

/-- Body of a JSON string literal (after the opening quote); returns the
decoded characters and the input after the closing quote. -/
def parseJsonStrBody : Nat → List Char → Option (List Char × List Char)
  | 0, _ => none
  | _ + 1, [] => none
  | f + 1, c :: l =>
      if c == quoteChar then some ([], l)
      else if c == backslashChar then
        match l with
        | [] => none
        | e :: l2 =>
            let dec : Option (Char × List Char) :=
              if e == quoteChar then some (quoteChar, l2)
              else if e == backslashChar then some (backslashChar, l2)
              else if e == Char.ofNat 47 then some (Char.ofNat 47, l2)
              else if e == Char.ofNat 98 then some (Char.ofNat 8, l2)
              else if e == Char.ofNat 102 then some (Char.ofNat 12, l2)
              else if e == Char.ofNat 110 then some (Char.ofNat 10, l2)
              else if e == Char.ofNat 114 then some (Char.ofNat 13, l2)
              else if e == Char.ofNat 116 then some (Char.ofNat 9, l2)
              else if e == Char.ofNat 117 then
                match l2 with
                | a :: b :: c2 :: d :: l3 =>
                    match hexDigitVal a, hexDigitVal b, hexDigitVal c2, hexDigitVal d with
                    | some x, some y, some z, some w =>
                        some (Char.ofNat (((x * 16 + y) * 16 + z) * 16 + w), l3)
                    | _, _, _, _ => none
                | _ => none
              else none
            match dec with
            | some (ch, l3) => (parseJsonStrBody f l3).map (fun r => (ch :: r.1, r.2))
            | none => none
      else if c.toNat < 32 then none
      else (parseJsonStrBody f l).map (fun r => (c :: r.1, r.2))

def isDigitCh (c : Char) : Bool := Char.ofNat 48 ≤ c && c ≤ Char.ofNat 57

def takeDigits : List Char → (List Char × List Char)
  | [] => ([], [])
  | c :: l =>
      if isDigitCh c then
        let r := takeDigits l
        (c :: r.1, r.2)
      else ([], c :: l)

/-- JSON number grammar `-? (0 | [1-9][0-9]*) (\.[0-9]+)? ([eE][+-]?[0-9]+)?`;
returns the lexeme. -/
def parseJsonNum (l : List Char) : Option (List Char × List Char) :=
  let (sign, l1) :=
    match l with
    | c :: rest => if c == Char.ofNat 45 then ([c], rest) else ([], l)
    | [] => ([], [])
  match l1 with
  | [] => none
  | c :: rest =>
      if !(isDigitCh c) then none
      else
        let (intTail, l2) := if c == Char.ofNat 48 then ([], rest) else takeDigits rest
        let (fracPart, l3) :=
          match l2 with
          | d :: rest2 =>
              if d == Char.ofNat 46 then
                let (ds, l4) := takeDigits rest2
                if ds.isEmpty then ([], l2) else (d :: ds, l4)
              else ([], l2)
          | [] => ([], [])
        if fracPart.isEmpty && (match l2 with | d :: _ => d == Char.ofNat 46 | [] => false) then none
        else
          let (expPart, l5) :=
            match l3 with
            | e :: rest3 =>
                if e == Char.ofNat 101 || e == Char.ofNat 69 then
                  let (es, rest4) :=
                    match rest3 with
                    | s :: rest5 =>
                        if s == Char.ofNat 43 || s == Char.ofNat 45 then ([s], rest5)
                        else ([], rest3)
                    | [] => ([], [])
                  let (ds, l6) := takeDigits rest4
                  if ds.isEmpty then ([], l3) else (e :: (es ++ ds), l6)
                else ([], l3)
            | [] => ([], [])
          if expPart.isEmpty && (match l3 with | e :: _ => e == Char.ofNat 101 || e == Char.ofNat 69 | [] => false) then none
          else some (sign ++ [c] ++ intTail ++ fracPart ++ expPart, l5)

/-- One `"key": value` member, then `,` to continue or `}` to finish; the
nested-value parser is passed in, so the loop is structurally recursive on
its own (length-bounded) fuel. -/
def parseJsonObjLoop (pv : List Char → Option (JsonV × List Char)) :
    Nat → List Char → List (String × JsonV) → Option (JsonV × List Char)
  | 0, _, _ => none
  | f + 1, l, acc =>
      match l with
      | c :: l1 =>
          if c == quoteChar then
            match parseJsonStrBody (l1.length + 1) l1 with
            | some (key, l2) =>
                match skipJsonWs l2 with
                | d :: l3 =>
                    if d == colonChar then
                      match pv (skipJsonWs l3) with
                      | some (v, l4) =>
                          let acc2 := acc ++ [(String.mk key, v)]
                          match skipJsonWs l4 with
                          | e :: l5 =>
                              if e == commaChar then parseJsonObjLoop pv f (skipJsonWs l5) acc2
                              else if e == braceClose then some (.jObj acc2, l5)
                              else none
                          | [] => none
                      | none => none
                    else none
                | [] => none
            | none => none
          else none
      | [] => none

/-- Object members after `{` (whitespace skipped). -/
def parseJsonObj (pv : List Char → Option (JsonV × List Char)) :
    List Char → Option (JsonV × List Char)
  | [] => none
  | c :: l =>
      if c == braceClose then some (.jObj [], l)
      else parseJsonObjLoop pv (l.length + 2) (c :: l) []

def parseJsonArrLoop (pv : List Char → Option (JsonV × List Char)) :
    Nat → List Char → List JsonV → Option (JsonV × List Char)
  | 0, _, _ => none
  | f + 1, l, acc =>
      match pv l with
      | some (v, l1) =>
          let acc2 := acc ++ [v]
          match skipJsonWs l1 with
          | e :: l2 =>
              if e == commaChar then parseJsonArrLoop pv f (skipJsonWs l2) acc2
              else if e == brackClose then some (.jArr acc2, l2)
              else none
          | [] => none
      | none => none

/-- Array elements after `[` (whitespace skipped). -/
def parseJsonArr (pv : List Char → Option (JsonV × List Char)) :
    List Char → Option (JsonV × List Char)
  | [] => none
  | c :: l =>
      if c == brackClose then some (.jArr [], l)
      else parseJsonArrLoop pv (l.length + 2) (c :: l) []

/-- Fueled recursive-descent JSON value parser (model of `JSON.parse`);
expects leading whitespace already skipped.  The fuel bounds the nesting
depth and exceeds the input length at the top-level call. -/
def parseJsonV : Nat → List Char → Option (JsonV × List Char)
  | 0, _ => none
  | _ + 1, [] => none
  | f + 1, c :: l =>
      if c == quoteChar then
        (parseJsonStrBody (l.length + 1) l).map (fun r => (.jStr (String.mk r.1), r.2))
      else if c == braceOpen then parseJsonObj (parseJsonV f) (skipJsonWs l)
      else if c == brackOpen then parseJsonArr (parseJsonV f) (skipJsonWs l)
      else
        match litMatch ("true".data) (c :: l) with
        | some rest => some (.jBool true, rest)
        | none =>
            match litMatch ("false".data) (c :: l) with
            | some rest => some (.jBool false, rest)
            | none =>
                match litMatch ("null".data) (c :: l) with
                | some rest => some (.jNull, rest)
                | none =>
                    (parseJsonNum (c :: l)).map (fun r => (.jNum (String.mk r.1), r.2))

/-- Model of `JSON.parse`: `none` models a `SyntaxError` throw. -/
def jsonParse (s : String) : Option JsonV :=
  match parseJsonV (s.length + 2) (skipJsonWs s.data) with
  | some (v, rest) => if (skipJsonWs rest).isEmpty then some v else none
  | none => none

/-- Last-wins field lookup (`JSON.parse` keeps the last duplicate key). -/
def jGet (fields : List (String × JsonV)) (k : String) : Option JsonV :=
  (fields.reverse.find? (fun p => p.1 == k)).map (fun p => p.2)

/-- Numeric lexeme denotes zero iff every mantissa digit is `0`. -/
def numLexIsZero (lex : String) : Bool :=
  (lex.data.takeWhile (fun c => !(c == Char.ofNat 101) && !(c == Char.ofNat 69))).all
    (fun c => c == Char.ofNat 48 || c == Char.ofNat 46 || c == Char.ofNat 45)

/-- JS truthiness of a parsed JSON value. -/
def jsTruthy : JsonV → Bool
  | .jNull => false
  | .jBool b => b
  | .jStr s => !(s == "")
  | .jNum lex => !(numLexIsZero lex)
  | .jArr _ => true
  | .jObj _ => true

/-- `parsed.reason` when it is a string (the declared type); other runtime
types are not observable by any property the claims state. -/
def jReasonField (v : JsonV) : Option String :=
  match v with
  | .jObj fs =>
      match jGet fs "reason" with
      | some (.jStr r) => some r
      | _ => none
  | _ => none

/-- The whole-string `try` block of `parseDecision`: `.error ()` means an
exception was thrown inside it (JSON.parse failure, or `.toLowerCase()` on a
truthy non-string `decision`), transferring control to the `catch` branch;
`.ok none` means the block ran through without returning. -/
def parseDecisionWhole (cleaned : String) : Except Unit (Option GuardianLLMResult) :=
  match jsonParse cleaned with
  | none => .error ()
  | some v =>
      let dfield : Option JsonV :=
        match v with
        | .jObj fs => jGet fs "decision"
        | _ => none
      match dfield with
      | none => .ok none
      | some dv =>
          if jsTruthy dv then
            match dv with
            | .jStr s =>
                let d := jsTrimStr (jsToLowerStr s)
                if d == "allow" then .ok (some { decision := .allow, reason := jReasonField v })
                else if d == "deny" then .ok (some { decision := .deny, reason := jReasonField v })
                else if d == "escalate" then
                  .ok (some { decision := .escalate, reason := jReasonField v })
                else .ok none
            | _ => .error ()
          else .ok none

/-- Tail of the regex `/\{[^}]*"decision"\s*:\s*"[^"]+"/` after the opening
brace: a `}`-free run, the literal `"decision"`, optional whitespace around
`:`, then a quoted non-empty string start. -/
def afterBraceMatch (l : List Char) : Bool :=
  match litMatch ("\x22decision\x22".data) l with
  | some l1 =>
      match skipRegexWs l1 with
      | c :: l2 =>
          if c == colonChar then
            match skipRegexWs l2 with
            | d :: l3 =>
                (d == quoteChar) &&
                  (match l3 with
                   | e :: l4 => !(e == quoteChar) && (l4.any (fun x => x == quoteChar) || false)
                   | [] => false)
            | [] => false
          else false
      | [] => false
  | none => false
where
  skipRegexWs : List Char → List Char
    | [] => []
    | c :: l => if isJsWs c then skipRegexWs l else c :: l

/-- Scan the `[^}]*` run, attempting the `"decision"` tail at each point. -/
def scanNoCloseBrace : List Char → Bool
  | [] => afterBraceMatch []
  | c :: l => afterBraceMatch (c :: l) || (!(c == braceClose) && scanNoCloseBrace l)

def matchDecisionAt : List Char → Bool
  | [] => false
  | c :: l => (c == braceOpen) && scanNoCloseBrace l

/-- Index of the first regex match (the `indexOf` of the matched text equals
this index: an earlier occurrence of the same text would itself match). -/
def findDecisionStart : List Char → Nat → Option Nat
  | [], _ => none
  | c :: l, i => if matchDecisionAt (c :: l) then some i else findDecisionStart l (i + 1)

/-- The brace-depth scan from the match start; returns the slice up to and
including the brace closing depth 0, or `none` if the loop runs out. -/
def scanBalanced : List Char → Nat → List Char → Option (List Char)
  | [], _, _ => none
  | c :: rest, depth, acc =>
      let d2 := if c == braceOpen then depth + 1 else if c == braceClose then depth - 1 else depth
      if c == braceClose ∧ d2 = 0 then some ((c :: acc).reverse)
      else scanBalanced rest d2 (c :: acc)

/-- Parse the balanced slice and read a valid string decision from it; every
other shape (parse throw, non-object, missing/invalid/non-string decision)
falls through to the `break`. -/
def parseSliceDecision (slice : String) : Option GuardianLLMResult :=
  match jsonParse slice with
  | some (.jObj fs) =>
      match jGet fs "decision" with
      | some (.jStr s) =>
          let d := jsTrimStr (jsToLowerStr s)
          if d == "allow" then some { decision := .allow, reason := jReasonField (.jObj fs) }
          else if d == "deny" then some { decision := .deny, reason := jReasonField (.jObj fs) }
          else if d == "escalate" then
            some { decision := .escalate, reason := jReasonField (.jObj fs) }
          else none
      | _ => none
  | _ => none

/-- The `catch` branch of `parseDecision`: regex search, balanced-brace
extraction, parse of the first balanced span only. -/
def parseDecisionFallback (cleaned : String) : Option GuardianLLMResult :=
  match findDecisionStart cleaned.data 0 with
  | none => none
  | some i =>
      match scanBalanced (cleaned.data.drop i) 0 [] with
      | none => none
      | some slice => parseSliceDecision (String.mk slice)

/-- `parseDecision` from llm-evaluator.ts. -/
def parseDecision (text : String) : GuardianLLMResult :=
  let cleaned := jsTrimStr text
  match parseDecisionWhole cleaned with
  | .ok (some r) => r
  | .ok none => { decision := .escalate, reason := some "Could not parse LLM response" }
  | .error () =>
      match parseDecisionFallback cleaned with
      | some r => r
      | none => { decision := .escalate, reason := some "Could not parse LLM response" }

/-- Outcome of racing the adjudicator call against the timeout timer.  The
prompt construction (constitution resolution, truncated parameter JSON) feeds
the opaque call and cannot influence which outcome occurs. -/
inductive LLMCallOutcome where
  | success (text : String)
  | timeout
  | callError (msg : String)
deriving Repr, DecidableEq, Inhabited

/-- `evaluateWithLLM`: parse on success; the `catch` turns a timer win
(`String(err)` of the raced `Error("LLM evaluation timed out")`) or a call
rejection into an escalate result. -/
def evaluateWithLLM (outcome : LLMCallOutcome) : GuardianLLMResult :=
  match outcome with
  | .success text => parseDecision text
  | .timeout =>
      { decision := .escalate
      , reason := some "LLM evaluation failed: Error: LLM evaluation timed out" }
  | .callError msg =>
      { decision := .escalate, reason := some ("LLM evaluation failed: " ++ msg) }

-- ─── Budget tracker (budget.ts) ───────────────────────────────────────────────

inductive BudgetAction where
  | deny | escalate
deriving Repr, BEq, DecidableEq, Inhabited

structure GuardianBudgetConfig where
  enabled : Option Bool := none
  sessionLimit : Option Rat := none
  dailyLimit : Option Rat := none
  perToolCosts : Option (List (String × Rat)) := none
  defaultToolCost : Option Rat := none
  onExceeded : Option BudgetAction := none
deriving Repr, DecidableEq, Inhabited

structure GuardianBudgetResult where
  exceeded : Bool
  action : Option BudgetAction := none
  reason : Option String := none
deriving Repr, DecidableEq, Inhabited

/-- The in-memory state of the tracker: session totals plus the cached daily entry
for the current date.  Disk persistence is best-effort fire-and-forget
(failures never abort a call) and date rollover is real-time behaviour;
neither is part of this model. -/
structure TrackerState where
  sessionTotal : Rat
  sessionCosts : List (String × Rat)
  dailyTotal : Rat
  dailyPerAgent : List (String × Rat)
deriving Repr, DecidableEq, Inhabited

def emptyTracker : TrackerState :=
  { sessionTotal := 0, sessionCosts := [], dailyTotal := 0, dailyPerAgent := [] }

def rmapGet (m : List (String × Rat)) (k : String) : Option Rat :=
  (m.find? (fun p => p.1 == k)).map (fun p => p.2)

/-- `Map.set`: update in place, else append (insertion order preserved). -/
def rmapSet (m : List (String × Rat)) (k : String) (v : Rat) : List (String × Rat) :=
  match m with
  | [] => [(k, v)]
  | (k2, v2) :: rest => if k2 == k then (k, v) :: rest else (k2, v2) :: rmapSet rest k v

/-- JS truthiness of the optional `agentId` argument (the code guards each
agent-specific update with `if (agentId)`, so an empty string is falsy). -/
def truthyAgent : Option String → Option String
  | some s => if s == "" then none else some s
  | none => none

def getSessionCostT (t : TrackerState) (agentId : Option String) : Rat :=
  match truthyAgent agentId with
  | some a => (rmapGet t.sessionCosts a).getD 0
  | none => t.sessionTotal

def getDailyCostT (t : TrackerState) (agentId : Option String) : Rat :=
  match truthyAgent agentId with
  | some a => (rmapGet t.dailyPerAgent a).getD 0
  | none => t.dailyTotal

/-- `recordCost`: adds the cost to the global session total, the per-agent
session total, the daily total and the per-agent daily total (then persists
the daily entry, best-effort). -/
def recordCostT (t : TrackerState) (cost : Rat) (agentId : Option String) : TrackerState :=
  let t1 := { t with sessionTotal := t.sessionTotal + cost }
  let t2 :=
    match truthyAgent agentId with
    | some a =>
        { t1 with sessionCosts := rmapSet t1.sessionCosts a ((rmapGet t1.sessionCosts a).getD 0 + cost) }
    | none => t1
  let t3 := { t2 with dailyTotal := t2.dailyTotal + cost }
  match truthyAgent agentId with
  | some a =>
      { t3 with dailyPerAgent := rmapSet t3.dailyPerAgent a ((rmapGet t3.dailyPerAgent a).getD 0 + cost) }
  | none => t3

def resolveToolCost (toolName : String) (config : Option GuardianBudgetConfig) : Rat :=
  match config.bind (fun c => c.perToolCosts.bind (fun m => rmapGet m toolName)) with
  | some c => c
  | none => (config.bind (fun c => c.defaultToolCost)).getD ((1 : Rat) / 100)

def padZeros (w : Nat) (s : String) : String :=
  if s.length < w then String.mk (List.replicate (w - s.length) (Char.ofNat 48)) ++ s else s

/-- Models `Number.prototype.toFixed(4)` (round half away from zero). -/
def renderFixed4 (q : Rat) : String :=
  let n : Nat := (Int.floor (|q| * 10000 + (1 : Rat) / 2)).toNat
  let sign := if q < 0 then "-" else ""
  sign ++ toString (n / 10000) ++ "." ++ padZeros 4 (toString (n % 10000))

/-- Models the JavaScript number-to-string conversion used for the budget
limit in the reason message (exact for integers and short decimals). -/
def renderAmount (q : Rat) : String :=
  if q.den = 1 then toString q.num
  else
    match (List.range 21).find? (fun k => (q * ((10 : Rat) ^ k)).den = 1) with
    | some k =>
        let scaled := (q * ((10 : Rat) ^ k)).num.natAbs
        let sign := if q < 0 then "-" else ""
        sign ++ toString (scaled / 10 ^ k) ++ "." ++ padZeros k (toString (scaled % 10 ^ k))
    | none => toString q.num ++ "/" ++ toString q.den

/-- `checkBudget` from budget.ts: disabled budgets never trip; otherwise the
session check runs before the daily check, each asking whether the running
total plus the cost of this call would exceed the limit.  No cost is recorded
here. -/
def checkBudgetT (toolName : String) (budgetConfig : Option GuardianBudgetConfig)
    (tracker : TrackerState) (agentId : Option String) : GuardianBudgetResult :=
  match budgetConfig with
  | none => { exceeded := false }
  | some cfg =>
      if cfg.enabled ≠ some true then { exceeded := false }
      else
        let cost := resolveToolCost toolName (some cfg)
        let onExceeded := cfg.onExceeded.getD .deny
        let sessionHit : Option Rat :=
          match cfg.sessionLimit with
          | some sl => if sl < getSessionCostT tracker agentId + cost then some sl else none
          | none => none
        match sessionHit with
        | some sl =>
            { exceeded := true, action := some onExceeded
            , reason := some ("Session budget exceeded: $" ++
                renderFixed4 (getSessionCostT tracker agentId + cost) ++ " > $" ++
                renderAmount sl ++ " limit") }
        | none =>
            match cfg.dailyLimit with
            | some dl =>
                if dl < getDailyCostT tracker agentId + cost then
                  { exceeded := true, action := some onExceeded
                  , reason := some ("Daily budget exceeded: $" ++
                      renderFixed4 (getDailyCostT tracker agentId + cost) ++ " > $" ++
                      renderAmount dl ++ " limit") }
                else { exceeded := false }
            | none => { exceeded := false }

/-- `recordToolCost`: resolve the cost of the tool and record it. -/
def recordToolCostT (toolName : String) (budgetConfig : Option GuardianBudgetConfig)
    (tracker : TrackerState) (agentId : Option String) : TrackerState :=
  recordCostT tracker (resolveToolCost toolName budgetConfig) agentId

-- ─── Guardian configuration (types.ts, rules.ts helpers) ──────────────────────

inductive GuardianDecision where
  | allowOnce | allowSession | allowAlways | deny
deriving Repr, BEq, DecidableEq, Inhabited

structure GuardianAgentOverride where
  approvalThreshold : Option RiskLevel := none
  rules : Option (List GuardianRule) := none
  budget : Option GuardianBudgetConfig := none
deriving Repr, DecidableEq, Inhabited

/-- Guardian configuration (constitution fields feed only the opaque
adjudicator prompt and are not part of the model). -/
structure GuardianConfig where
  enabled : Option Bool := none
  approvalThreshold : Option RiskLevel := none
  timeoutMs : Option Nat := none
  rules : Option (List GuardianRule) := none
  budget : Option GuardianBudgetConfig := none
  agents : List (String × GuardianAgentOverride) := []
deriving Repr, DecidableEq, Inhabited

def agentLookup (config : GuardianConfig) (agentId : String) : Option GuardianAgentOverride :=
  (config.agents.find? (fun p => p.1 == agentId)).map (fun p => p.2)

/-- `effectiveThreshold` (the `agentId &&` guard makes an empty id falsy). -/
def effectiveThreshold (config : GuardianConfig) (agentId : Option String) : RiskLevel :=
  match truthyAgent agentId with
  | some a =>
      match (agentLookup config a).bind (fun o => o.approvalThreshold) with
      | some t => t
      | none => config.approvalThreshold.getD .high
  | none => config.approvalThreshold.getD .high

/-- Object spread `\x7b...config.budget, ...agents[agentId].budget\x7d`:
fields present on the agent override win. -/
def mergeBudget (base : Option GuardianBudgetConfig) (o : GuardianBudgetConfig) :
    GuardianBudgetConfig :=
  let b := base.getD {}
  { enabled := o.enabled <|> b.enabled
  , sessionLimit := o.sessionLimit <|> b.sessionLimit
  , dailyLimit := o.dailyLimit <|> b.dailyLimit
  , perToolCosts := o.perToolCosts <|> b.perToolCosts
  , defaultToolCost := o.defaultToolCost <|> b.defaultToolCost
  , onExceeded := o.onExceeded <|> b.onExceeded }

def effectiveBudget (config : GuardianConfig) (agentId : Option String) :
    Option GuardianBudgetConfig :=
  match truthyAgent agentId with
  | some a =>
      match (agentLookup config a).bind (fun o => o.budget) with
      | some b => some (mergeBudget config.budget b)
      | none => config.budget
  | none => config.budget

-- ─── Decision cache key (hook.ts cacheKey) ────────────────────────────────────

/-- Stable insertion into a key-sorted list (models `toSorted` with the
`localeCompare` comparator; modelled with lexicographic string order — the
claims depend only on the sort being a fixed deterministic function of the
entries, and parameter keys of one object are distinct). -/
def insertByKey (p : String × JSValue) : List (String × JSValue) → List (String × JSValue)
  | [] => [p]
  | q :: rest => if strLeB p.1 q.1 then p :: q :: rest else q :: insertByKey p rest

def sortParams : List (String × JSValue) → List (String × JSValue)
  | [] => []
  | p :: rest => insertByKey p (sortParams rest)

/-- `JSON.stringify(v)` with the `catch` falling back to `String(v)`. -/
def stringifyCacheVal (v : JSValue) : String :=
  match jstringify v with
  | some s => s
  | none => jsToString v

/-- `cacheKey`: tool name plus `k=v` pairs of the key-sorted entries joined
with `&`. -/
def cacheKey (toolName : String) (toolParams : List (String × JSValue)) : String :=
  toolName ++ ":" ++
    String.intercalate "&"
      ((sortParams toolParams).map (fun kv => kv.1 ++ "=" ++ stringifyCacheVal kv.2))

-- ─── Guardian hook orchestrator (hook.ts) ─────────────────────────────────────

structure HookResult where
  block : Bool
  blockReason : Option String := none
deriving Repr, DecidableEq, Inhabited

/-- Instrumentation tag recording which return site of the handler produced
the outcome; it carries no behaviour. -/
inductive DecisionPath where
  | disabled | cacheHit | budgetDeny | budgetEscalateHuman | budgetEscalateNoHuman
  | tier1Allow | tier1Deny | tier2Allow | tier2Deny | tier3Human | tier3NoHandler
deriving Repr, DecidableEq, Inhabited

structure HookOutcome where
  result : Option HookResult
  taskCache : List String
  alwaysCache : List String
  tracker : Option TrackerState
  path : DecisionPath
deriving Repr, DecidableEq, Inhabited

/-- `Set.add`: append if absent. -/
def setAdd (s : List String) (k : String) : List String :=
  if k ∈ s then s else s ++ [k]

/-- `resolveDecision` from hook.ts: `null` (timeout) and `deny` both block
with "Denied by operator"; the allow variants proceed, updating the session
or permanent cache as requested. -/
def resolveDecisionFn (decision : Option GuardianDecision) (key : String)
    (taskCache alwaysCache : List String) :
    Option HookResult × List String × List String :=
  match decision with
  | none => (some { block := true, blockReason := some "Denied by operator" }, taskCache, alwaysCache)
  | some .deny =>
      (some { block := true, blockReason := some "Denied by operator" }, taskCache, alwaysCache)
  | some .allowSession => (none, setAdd taskCache key, alwaysCache)
  | some .allowAlways => (none, taskCache, setAdd alwaysCache key)
  | some .allowOnce => (none, taskCache, alwaysCache)

/-- Hook construction parameters.  The two async collaborators are oracles:
`llm = some o` means `callLLM` is configured and its raced call yields `o`;
`human = some d` means `requestHumanApproval` is configured and resolves to
`d` (`none` inside = timeout/null).  `tracker` is the budget tracker state
(absent = no tracker configured). -/
structure GuardianHookParams where
  config : GuardianConfig
  agentId : Option String := none
  sessionKey : Option String := none
  senderIsOwner : Option Bool := none
  isSubagent : Option Bool := none
  isAllowed : Option Bool := none
  llm : Option LLMCallOutcome := none
  human : Option (Option GuardianDecision) := none
  tracker : Option TrackerState := none
deriving Repr, Inhabited

structure HookEvent where
  toolName : String
  params : List (String × JSValue)
deriving Repr, Inhabited

structure HookCtx where
  agentId : Option String := none
  senderIsOwner : Option Bool := none
deriving Repr, DecidableEq, Inhabited

/-- `recordCostIfEnabled`: records iff a budget tracker is configured. -/
def recordCostIfEnabledM (config : GuardianConfig) (toolName : String)
    (agentId : Option String) (tracker : Option TrackerState) : Option TrackerState :=
  match tracker with
  | some t => some (recordToolCostT toolName (effectiveBudget config agentId) t agentId)
  | none => none

/-- Tier 3 tail of the handler: ask the human if configured, else block. -/
def guardianTier3 (p : GuardianHookParams) (key : String) (task always : List String)
    (tracker : Option TrackerState) (rrReason : Option String) : HookOutcome :=
  match p.human with
  | some hd =>
      let r := resolveDecisionFn hd key task always
      { result := r.1, taskCache := r.2.1, alwaysCache := r.2.2
      , tracker := tracker, path := .tier3Human }
  | none =>
      let blocked : HookResult :=
        { block := true
        , blockReason := some (rrReason.getD "Escalated but no human approval handler configured") }
      { result := some blocked, taskCache := task, alwaysCache := always
      , tracker := tracker, path := .tier3NoHandler }

/-- Tiers 1-3 of the handler (after the cache and budget gates). -/
def guardianTiers (p : GuardianHookParams) (eng : RegexEngine) (ev : HookEvent)
    (ctx : HookCtx) (toolName : String) (agentId : Option String) (key : String)
    (task always : List String) (tracker : Option TrackerState) :
    Except JSError HookOutcome :=
  let trustLevel :=
    resolveTrustLevel (ctx.senderIsOwner <|> p.senderIsOwner) p.isSubagent p.isAllowed
  let agentRules := ((agentLookup p.config (agentId.getD "")).bind (fun o => o.rules)).getD []
  match evaluateRulesE toolName ev.params (p.config.rules.getD []) agentRules
      (effectiveThreshold p.config agentId) trustLevel eng with
  | .error e => .error e
  | .ok rr =>
      if rr.decision = .allow then
        .ok { result := none, taskCache := task, alwaysCache := always
            , tracker := recordCostIfEnabledM p.config toolName agentId tracker
            , path := .tier1Allow }
      else if rr.decision = .deny then
        let blocked : HookResult :=
          { block := true, blockReason := some (rr.reason.getD "Denied by guardian rule") }
        .ok { result := some blocked, taskCache := task, alwaysCache := always
            , tracker := tracker, path := .tier1Deny }
      else
        match p.llm with
        | some outcome =>
            let lr := evaluateWithLLM outcome
            if lr.decision = .allow then
              .ok { result := none, taskCache := task, alwaysCache := always
                  , tracker := recordCostIfEnabledM p.config toolName agentId tracker
                  , path := .tier2Allow }
            else if lr.decision = .deny then
              let blocked : HookResult :=
                { block := true, blockReason := some (lr.reason.getD "Denied by guardian LLM") }
              .ok { result := some blocked, taskCache := task, alwaysCache := always
                  , tracker := tracker, path := .tier2Deny }
            else .ok (guardianTier3 p key task always tracker rr.reason)
        | none => .ok (guardianTier3 p key task always tracker rr.reason)

/-- The `before_tool_call` handler built by `createGuardianHook`, as a pure
state transformer over the two caches and the budget tracker state.  A
`.error` result models a JavaScript exception escaping the handler. -/
def guardianHandler (p : GuardianHookParams) (eng : RegexEngine) (ev : HookEvent)
    (ctx : HookCtx) (task always : List String) : Except JSError HookOutcome :=
  if p.config.enabled ≠ some true then
    .ok { result := none, taskCache := task, alwaysCache := always
        , tracker := p.tracker, path := .disabled }
  else
    let toolName := normalizeToolName ev.toolName
    let agentId := ctx.agentId <|> p.agentId
    let key := cacheKey toolName ev.params
    if key ∈ always ∨ key ∈ task then
      .ok { result := none, taskCache := task, alwaysCache := always
          , tracker := recordCostIfEnabledM p.config toolName agentId p.tracker
          , path := .cacheHit }
    else
      match p.tracker with
      | some t =>
          let br := checkBudgetT toolName (effectiveBudget p.config agentId) t agentId
          if br.exceeded then
            if br.action = some .deny then
              let blocked : HookResult :=
                { block := true, blockReason := some (br.reason.getD "Budget exceeded") }
              .ok { result := some blocked, taskCache := task, alwaysCache := always
                  , tracker := some t, path := .budgetDeny }
            else
              match p.human with
              | some hd =>
                  let r := resolveDecisionFn hd key task always
                  .ok { result := r.1, taskCache := r.2.1, alwaysCache := r.2.2
                      , tracker := some t, path := .budgetEscalateHuman }
              | none =>
                  let blocked : HookResult :=
                    { block := true, blockReason := some (br.reason.getD "Budget exceeded") }
                  .ok { result := some blocked, taskCache := task, alwaysCache := always
                      , tracker := some t, path := .budgetEscalateNoHuman }
          else guardianTiers p eng ev ctx toolName agentId key task always (some t)
      | none => guardianTiers p eng ev ctx toolName agentId key task always none

-- ─── Approval manager (guardian-approval-manager.ts + request handler) ────────

structure ApprovalRequestPayload where
  toolName : String
  params : List (String × JSValue)
  riskLevel : Option String := none
  trustLevel : Option String := none
  reason : Option String := none
  agentId : Option String := none
  sessionKey : Option String := none
deriving Repr, Inhabited

structure ApprovalRecord where
  id : String
  request : ApprovalRequestPayload
  createdAtMs : Nat
  expiresAtMs : Nat
  resolvedAtMs : Option Nat := none
  decision : Option GuardianDecision := none
  resolvedBy : Option String := none
deriving Repr, Inhabited

structure PendingEntry where
  record : ApprovalRecord
deriving Repr, Inhabited

/-- Manager state: the pending map plus the set of armed timeout timers (one
per registered pending id). -/
structure ManagerState where
  pending : List (String × PendingEntry)
  timers : List String
deriving Repr, Inhabited

def emptyManager : ManagerState := { pending := [], timers := [] }

def mapGetP (m : List (String × PendingEntry)) (k : String) : Option PendingEntry :=
  (m.find? (fun p => p.1 == k)).map (fun p => p.2)

def mapSetP (m : List (String × PendingEntry)) (k : String) (v : PendingEntry) :
    List (String × PendingEntry) :=
  match m with
  | [] => [(k, v)]
  | (k2, v2) :: rest => if k2 == k then (k, v) :: rest else (k2, v2) :: mapSetP rest k v

def mapDelP (m : List (String × PendingEntry)) (k : String) : List (String × PendingEntry) :=
  m.filter (fun p => !(p.1 == k))

def pendingKeys (m : List (String × PendingEntry)) : List String := m.map (fun p => p.1)

/-- `create`: trimmed caller id when non-empty, else the fresh `randomUUID`
value (passed in as the oracle `freshId`); does not register anything. -/
def createRecord (request : ApprovalRequestPayload) (timeoutMs : Nat)
    (id : Option String) (now : Nat) (freshId : String) : ApprovalRecord :=
  let resolvedId :=
    match id with
    | some i => if 0 < (jsTrimStr i).length then jsTrimStr i else freshId
    | none => freshId
  { id := resolvedId, request := request, createdAtMs := now, expiresAtMs := now + timeoutMs }

/-- The synchronous effect of `waitForDecision`: register the record in the
pending map and arm its timeout timer. -/
def waitRegister (s : ManagerState) (record : ApprovalRecord) : ManagerState :=
  { pending := mapSetP s.pending record.id ⟨record⟩, timers := setAdd s.timers record.id }

/-- The timeout timer firing: drop the entry (the wait resolves `null`). -/
def timerFire (s : ManagerState) (id : String) : ManagerState :=
  { pending := mapDelP s.pending id, timers := s.timers.filter (fun t => !(t == id)) }

def getSnapshotM (s : ManagerState) (id : String) : Option ApprovalRecord :=
  (mapGetP s.pending id).map (fun e => e.record)

structure ResolveOutcome where
  ok : Bool
  fulfilled : Option GuardianDecision := none
  stamped : Option ApprovalRecord := none
deriving Repr, Inhabited

/-- `resolve`: absent id fails with no effect; otherwise cancel the timer,
stamp the record, remove it from the pending map and fulfil the wait. -/
def resolveM (s : ManagerState) (recordId : String) (decision : GuardianDecision)
    (resolvedBy : Option String) (now : Nat) : ResolveOutcome × ManagerState :=
  match mapGetP s.pending recordId with
  | none => ({ ok := false }, s)
  | some entry =>
      let stamped := { entry.record with
        resolvedAtMs := some now, decision := some decision, resolvedBy := resolvedBy }
      ({ ok := true, fulfilled := some decision, stamped := some stamped },
       { pending := mapDelP s.pending recordId
       , timers := s.timers.filter (fun t => !(t == recordId)) })

/-- The id handling of the `guardian.approval.request` handler: reject a trimmed
non-empty caller id that is already pending, otherwise create the record and
register the wait (the "requested" broadcast between the two steps has no
effect on this state). -/
def approvalRequestFlow (s : ManagerState) (pid : Option String)
    (request : ApprovalRequestPayload) (timeoutMs now : Nat) (freshId : String) :
    Except String (ApprovalRecord × ManagerState) :=
  let explicitId : Option String :=
    match pid with
    | some i => if 0 < (jsTrimStr i).length then some (jsTrimStr i) else none
    | none => none
  match explicitId with
  | some eid =>
      if (getSnapshotM s eid).isSome then .error "approval id already pending"
      else
        let record := createRecord request timeoutMs (some eid) now freshId
        .ok (record, waitRegister s record)
  | none =>
      let record := createRecord request timeoutMs none now freshId
      .ok (record, waitRegister s record)

-- ─── Theorems ─────────────────────────────────────────────────────────────────

/-- A concrete regex-engine instance used by witnesses (a pattern that
matches nothing). -/
def engFalse : RegexEngine := fun _ _ => some false

theorem riskOrder_le_maxRisk_left (x y : RiskLevel) :
    riskOrder x ≤ riskOrder (maxRisk x y) := by
  unfold maxRisk
  split <;> omega

theorem thresholdDecision_riskLevel (risk : RiskLevel) (lbl : Option String)
    (th : RiskLevel) (tr : TrustLevel) :
    (thresholdDecision risk lbl th tr).riskLevel = risk := by
  unfold thresholdDecision
  split
  · rfl
  · split <;> (dsimp only; split <;> rfl)

theorem ruleDecision_riskLevel_ge (rule : GuardianRule) (risk : RiskLevel)
    (lbl : Option String) (tr : TrustLevel) :
    riskOrder risk ≤ riskOrder (ruleDecision rule risk lbl tr).riskLevel := by
  unfold ruleDecision
  cases rule.riskLevel with
  | none => simp
  | some rl => simpa using riskOrder_le_maxRisk_left risk rl

theorem computeRiskE_base_le (toolName : String) (params : List (String × JSValue))
    (risk : RiskLevel) (lbl : Option String)
    (h : computeRiskE toolName params = .ok (risk, lbl)) :
    riskOrder (getBaseRisk toolName) ≤ riskOrder risk := by
  unfold computeRiskE at h
  cases he : checkParamEscalationsE toolName params with
  | error e => rw [he] at h; cases h
  | ok o =>
      rw [he] at h
      cases o with
      | none =>
          injection h with h2
          injection h2 with hrisk _
          rw [hrisk]
      | some hit =>
          injection h with h2
          injection h2 with hrisk _
          rw [← hrisk]
          exact riskOrder_le_maxRisk_left _ _

/-- C3: for every tool name and parameter map (and any rules, threshold,
trust and regex engine), the risk level produced by Tier-1 evaluation is at
least the static base risk of the tool: escalation and rule riskOverride only
raise risk via max, never lower it. -/
theorem classify_ge_base (raw : String) (params : List (String × JSValue))
    (g a : List GuardianRule) (th : RiskLevel) (tr : TrustLevel) (eng : RegexEngine)
    (r : GuardianRuleResult)
    (h : evaluateRulesE raw params g a th tr eng = .ok r) :
    riskOrder (getBaseRisk (normalizeToolName raw)) ≤ riskOrder r.riskLevel := by
  simp only [evaluateRulesE] at h
  cases hc : computeRiskE (normalizeToolName raw) params with
  | error e => rw [hc] at h; cases h
  | ok pr =>
      obtain ⟨risk, lbl⟩ := pr
      rw [hc] at h
      have hbase := computeRiskE_base_le (normalizeToolName raw) params risk lbl hc
      cases hf : findMatchE (a ++ g) (normalizeToolName raw) params tr eng with
      | error e => rw [hf] at h; cases h
      | ok o =>
          rw [hf] at h
          cases o with
          | some rule =>
              injection h with h2
              rw [← h2]
              exact le_trans hbase (ruleDecision_riskLevel_ge rule risk lbl tr)
          | none =>
              injection h with h2
              rw [← h2, thresholdDecision_riskLevel]
              exact hbase

/-- Witness for `classify_ge_base` at `exec` with a destructive command. -/
theorem classify_ge_base_witness :
    riskOrder (getBaseRisk (normalizeToolName "exec")) ≤
      riskOrder (GuardianRuleResult.riskLevel
        { decision := .escalate, riskLevel := .critical, trustLevel := .allowed
        , reason := some "destructive command", ruleLabel := none }) :=
  classify_ge_base "exec" [("command", .vStr "rm -rf /data")] [] [] .high .allowed engFalse
    { decision := .escalate, riskLevel := .critical, trustLevel := .allowed
    , reason := some "destructive command", ruleLabel := none } (by rfl)

/-- C2 (code evaluation at the failing input): risk classification and rule
matching are NOT total — a non-serializable (cyclic) parameter value makes
the unguarded `JSON.stringify` in `checkParamEscalations` and `matchRule`
throw a `TypeError`, which propagates out of `evaluateRules`; the defensive
stringification the spec describes exists in `cacheKey` and the Tier-2
prompt builder, but not here. -/
theorem rules_throw_on_circular :
    checkParamEscalationsE "exec" [("command", JSValue.vCircular)] =
      .error (.typeError "Converting circular structure to JSON")
    ∧ matchRuleE { tool := some "exec", paramMatches := some [("command", ".*")] } "exec"
        [("command", JSValue.vCircular)] .owner engFalse =
      .error (.typeError "Converting circular structure to JSON")
    ∧ evaluateRulesE "exec" [("command", JSValue.vCircular)] [] [] .high .unknown engFalse =
      .error (.typeError "Converting circular structure to JSON") :=
  ⟨rfl, rfl, rfl⟩

/-- C4: with no rule matched, owner trust is allowed below critical with the
owner-bypass reason (whose text begins with "owner bypass"), and at critical
risk the owner bypass never applies — the call escalates. -/
theorem owner_bypass (raw : String) (params : List (String × JSValue))
    (g a : List GuardianRule) (th : RiskLevel) (eng : RegexEngine)
    (risk : RiskLevel) (lbl : Option String)
    (hrisk : computeRiskE (normalizeToolName raw) params = .ok (risk, lbl))
    (hnone : findMatchE (a ++ g) (normalizeToolName raw) params .owner eng = .ok none) :
    (riskAtLeast risk .critical = false →
      evaluateRulesE raw params g a th .owner eng =
        .ok { decision := .allow, riskLevel := risk, trustLevel := .owner
            , reason := some ("owner bypass" ++ " (risk below critical)"), ruleLabel := none })
    ∧ (risk = .critical →
      (evaluateRulesE raw params g a th .owner eng).map (fun r => r.decision) =
        .ok .escalate) := by
  simp only [evaluateRulesE, hrisk, hnone]
  constructor
  · intro hlt
    unfold thresholdDecision
    rw [if_pos ⟨rfl, hlt⟩]
    rfl
  · intro hcrit
    subst hcrit
    unfold thresholdDecision
    rw [if_neg (by simp [riskAtLeast])]
    cases th <;> rfl

/-- Witness for `owner_bypass` at `read` (risk low) with no rules. -/
theorem owner_bypass_witness :
    (riskAtLeast .low .critical = false →
      evaluateRulesE "read" [] [] [] .high .owner engFalse =
        .ok { decision := .allow, riskLevel := .low, trustLevel := .owner
            , reason := some ("owner bypass" ++ " (risk below critical)"), ruleLabel := none })
    ∧ (RiskLevel.low = .critical →
      (evaluateRulesE "read" [] [] [] .high .owner engFalse).map (fun r => r.decision) =
        .ok .escalate) :=
  owner_bypass "read" [] [] [] .high engFalse .low none (by rfl) (by rfl)

/-- Modelled from the words of the spec, for comparison with
`subagentAdjustedThreshold`: "lower the effective threshold by one rank
(floored at low)". -/
def lowerOneFloored : RiskLevel → RiskLevel
  | .low => .low
  | .medium => .low
  | .high => .medium
  | .critical => .high

/-- C5: with no rule matched and subagent trust, the effective threshold is
the configured threshold lowered by exactly one rank and floored at low, and
at the floor (threshold low) a low-risk call still escalates. -/
theorem subagent_threshold (raw : String) (params : List (String × JSValue))
    (g a : List GuardianRule) (th : RiskLevel) (eng : RegexEngine)
    (risk : RiskLevel) (lbl : Option String)
    (hrisk : computeRiskE (normalizeToolName raw) params = .ok (risk, lbl))
    (hnone : findMatchE (a ++ g) (normalizeToolName raw) params .subagent eng = .ok none) :
    (∀ t : RiskLevel, subagentAdjustedThreshold t = lowerOneFloored t)
    ∧ (evaluateRulesE raw params g a th .subagent eng).map (fun r => r.decision) =
        .ok (if riskAtLeast risk (lowerOneFloored th) then .escalate else .allow)
    ∧ (th = .low → risk = .low →
        (evaluateRulesE raw params g a th .subagent eng).map (fun r => r.decision) =
          .ok .escalate) := by
  have hadj : ∀ t : RiskLevel, subagentAdjustedThreshold t = lowerOneFloored t := by
    intro t
    cases t <;> rfl
  refine ⟨hadj, ?_, ?_⟩
  · simp only [evaluateRulesE, hrisk, hnone]
    unfold thresholdDecision
    rw [if_neg (by simp)]
    rw [if_pos rfl, hadj th]
    by_cases hc : riskAtLeast risk (lowerOneFloored th) = true <;>
      simp [hc, Except.map]
  · intro hth hrk
    subst hth
    subst hrk
    simp only [evaluateRulesE, hrisk, hnone]
    unfold thresholdDecision
    rw [if_neg (by simp)]
    rfl

/-- Witness for `subagent_threshold` at the floor boundary: tool `read`
(risk low), threshold low, subagent trust — the call escalates. -/
theorem subagent_threshold_witness :
    (∀ t : RiskLevel, subagentAdjustedThreshold t = lowerOneFloored t)
    ∧ (evaluateRulesE "read" [] [] [] .low .subagent engFalse).map (fun r => r.decision) =
        .ok (if riskAtLeast .low (lowerOneFloored .low) then .escalate else .allow)
    ∧ (RiskLevel.low = .low → RiskLevel.low = .low →
        (evaluateRulesE "read" [] [] [] .low .subagent engFalse).map (fun r => r.decision) =
          .ok .escalate) :=
  subagent_threshold "read" [] [] [] .low engFalse .low none (by rfl) (by rfl)

theorem mapGetP_del_self (m : List (String × PendingEntry)) (k : String) :
    mapGetP (mapDelP m k) k = none := by
  induction m with
  | nil => rfl
  | cons p rest ih =>
      unfold mapDelP at ih ⊢
      by_cases hp : p.1 = k
      · rw [List.filter_cons_of_neg (by simp [hp])]
        exact ih
      · rw [List.filter_cons_of_pos (by simp [hp])]
        unfold mapGetP at ih ⊢
        rw [List.find?_cons_of_neg _ (by simp [hp])]
        exact ih

theorem mapGetP_del_other (m : List (String × PendingEntry)) (k k2 : String)
    (h : k2 ≠ k) : mapGetP (mapDelP m k) k2 = mapGetP m k2 := by
  induction m with
  | nil => rfl
  | cons p rest ih =>
      unfold mapDelP at ih ⊢
      by_cases hp : p.1 = k
      · rw [List.filter_cons_of_neg (by simp [hp])]
        unfold mapGetP at ih ⊢
        rw [List.find?_cons_of_neg _ (by simp [hp]; exact fun he => h he.symm)]
        exact ih
      · rw [List.filter_cons_of_pos (by simp [hp])]
        by_cases hq : p.1 = k2
        · unfold mapGetP
          rw [List.find?_cons_of_pos _ (by simp [hq]), List.find?_cons_of_pos _ (by simp [hq])]
        · unfold mapGetP at ih ⊢
          rw [List.find?_cons_of_neg _ (by simp [hq]), List.find?_cons_of_neg _ (by simp [hq])]
          exact ih

theorem timers_filter_not_mem (l : List String) (k : String) :
    k ∉ l.filter (fun t => !(t == k)) := by
  intro hmem
  have := List.of_mem_filter hmem
  simp at this

/-- C6: a first successful `resolve(id, decision)` stamps the decision onto
the record and fulfils the wait exactly once, removes the entry from the
pending map, cancels its timer, leaves every other pending entry untouched —
and any second `resolve` on the same id returns failure without changing
state. -/
theorem resolve_at_most_once (s : ManagerState) (id : String) (d : GuardianDecision)
    (rb : Option String) (now : Nat) (o : ResolveOutcome) (s2 : ManagerState)
    (h : resolveM s id d rb now = (o, s2)) (hok : o.ok = true) :
    mapGetP s2.pending id = none
    ∧ id ∉ s2.timers
    ∧ o.fulfilled = some d
    ∧ (o.stamped.map (fun r => r.decision)) = some (some d)
    ∧ (o.stamped.map (fun r => r.resolvedAtMs)) = some (some now)
    ∧ (∀ d2 rb2 now2, resolveM s2 id d2 rb2 now2 = ({ ok := false }, s2))
    ∧ (∀ k, k ≠ id → mapGetP s2.pending k = mapGetP s.pending k) := by
  unfold resolveM at h
  cases hget : mapGetP s.pending id with
  | none =>
      rw [hget] at h
      injection h with h1 _
      rw [← h1] at hok
      cases hok
  | some entry =>
      rw [hget] at h
      injection h with h1 h2
      subst h1
      subst h2
      have hdel : mapGetP (mapDelP s.pending id) id = none := mapGetP_del_self s.pending id
      refine ⟨hdel, timers_filter_not_mem s.timers id, rfl, rfl, rfl, ?_, ?_⟩
      · intro d2 rb2 now2
        unfold resolveM
        rw [hdel]
      · intro k hk
        exact mapGetP_del_other s.pending id k hk

def samplePayload : ApprovalRequestPayload := { toolName := "exec", params := [] }

def sampleManager : ManagerState :=
  waitRegister emptyManager (createRecord samplePayload 1000 (some "A") 5 "u")

/-- Witness for `resolve_at_most_once`: a concrete registered approval "A"
resolved with deny. -/
theorem resolve_at_most_once_witness :
    mapGetP ((resolveM sampleManager "A" .deny (some "op") 9).2).pending "A" = none
    ∧ "A" ∉ ((resolveM sampleManager "A" .deny (some "op") 9).2).timers
    ∧ ((resolveM sampleManager "A" .deny (some "op") 9).1).fulfilled = some .deny
    ∧ (((resolveM sampleManager "A" .deny (some "op") 9).1).stamped.map
        (fun r => r.decision)) = some (some .deny)
    ∧ (((resolveM sampleManager "A" .deny (some "op") 9).1).stamped.map
        (fun r => r.resolvedAtMs)) = some (some 9)
    ∧ (∀ d2 rb2 now2, resolveM ((resolveM sampleManager "A" .deny (some "op") 9).2) "A" d2 rb2 now2 =
        ({ ok := false }, (resolveM sampleManager "A" .deny (some "op") 9).2))
    ∧ (∀ k, k ≠ "A" →
        mapGetP ((resolveM sampleManager "A" .deny (some "op") 9).2).pending k =
          mapGetP sampleManager.pending k) :=
  resolve_at_most_once sampleManager "A" .deny (some "op") 9
    (resolveM sampleManager "A" .deny (some "op") 9).1
    (resolveM sampleManager "A" .deny (some "op") 9).2 (by rfl) (by rfl)

theorem jsTrimStr_data (s : String) :
    (jsTrimStr s).data =
      List.rdropWhile isJsTrimWs (s.data.dropWhile isJsTrimWs) := by
  rfl

theorem dropWhile_rdropWhile_dropWhile (l : List Char) :
    (List.rdropWhile isJsTrimWs (l.dropWhile isJsTrimWs)).dropWhile isJsTrimWs =
      List.rdropWhile isJsTrimWs (l.dropWhile isJsTrimWs) := by
  rw [List.dropWhile_eq_self_iff]
  intro hl
  obtain ⟨t, ht⟩ := List.rdropWhile_prefix (p := isJsTrimWs)
    (l := l.dropWhile isJsTrimWs)
  have hlen : 0 < (l.dropWhile isJsTrimWs).length := by
    rw [← ht, List.length_append]
    omega
  have hcast : 0 < (List.rdropWhile isJsTrimWs (l.dropWhile isJsTrimWs) ++ t).length := by
    rw [List.length_append]
    omega
  have e1 : (List.rdropWhile isJsTrimWs (l.dropWhile isJsTrimWs) ++ t).get ⟨0, hcast⟩ =
      (List.rdropWhile isJsTrimWs (l.dropWhile isJsTrimWs)).get ⟨0, hl⟩ :=
    List.get_append 0 hl
  have e2 : (List.rdropWhile isJsTrimWs (l.dropWhile isJsTrimWs) ++ t).get ⟨0, hcast⟩ =
      (l.dropWhile isJsTrimWs).get ⟨0, hlen⟩ := List.get_of_eq ht ⟨0, hcast⟩
  rw [e1.symm.trans e2]
  exact List.dropWhile_get_zero_not isJsTrimWs l hlen

theorem jsTrimStr_idem (s : String) : jsTrimStr (jsTrimStr s) = jsTrimStr s := by
  have h1 : (jsTrimStr (jsTrimStr s)).data = (jsTrimStr s).data := by
    rw [jsTrimStr_data (jsTrimStr s), jsTrimStr_data s,
      dropWhile_rdropWhile_dropWhile, List.rdropWhile_idempotent]
  exact congrArg String.mk h1

theorem mapGetP_none_not_mem (m : List (String × PendingEntry)) (k : String)
    (h : mapGetP m k = none) : k ∉ pendingKeys m := by
  induction m with
  | nil => simp [pendingKeys]
  | cons p rest ih =>
      unfold mapGetP at h ih
      by_cases hp : p.1 = k
      · rw [List.find?_cons_of_pos _ (by simp [hp])] at h
        cases h
      · rw [List.find?_cons_of_neg _ (by simp [hp])] at h
        simp only [pendingKeys, List.map_cons, List.mem_cons]
        rintro (hk | hk)
        · exact hp hk.symm
        · exact ih h hk

theorem mapSetP_keys_of_not_mem (m : List (String × PendingEntry)) (k : String)
    (v : PendingEntry) (h : k ∉ pendingKeys m) :
    pendingKeys (mapSetP m k v) = pendingKeys m ++ [k] := by
  induction m with
  | nil => rfl
  | cons p rest ih =>
      simp only [pendingKeys, List.map_cons, List.mem_cons] at h
      push_neg at h
      unfold mapSetP
      rw [if_neg (by simp; exact fun he => h.1 he.symm)]
      simp only [pendingKeys, List.map_cons, List.cons_append]
      rw [show List.map (fun p => p.1) (mapSetP rest k v) = pendingKeys (mapSetP rest k v) from rfl,
        ih h.2]
      rfl

theorem mapGetP_setP_self (m : List (String × PendingEntry)) (k : String)
    (v : PendingEntry) : mapGetP (mapSetP m k v) k = some v := by
  induction m with
  | nil => simp [mapSetP, mapGetP, List.find?]
  | cons p rest ih =>
      unfold mapSetP
      by_cases hp : p.1 = k
      · rw [if_pos (by simp [hp])]
        simp [mapGetP, List.find?]
      · rw [if_neg (by simp [hp])]
        unfold mapGetP at ih ⊢
        rw [List.find?_cons_of_neg _ (by simp [hp])]
        exact ih

/-- The trimmed caller-supplied id when non-empty (called `explicitId` in
the handler). -/
def explicitTrimmedId : Option String → Option String
  | some i => if 0 < (jsTrimStr i).length then some (jsTrimStr i) else none
  | none => none

/-- Whether the caller-supplied id is already pending (the rejection
condition of the handler). -/
def explicitPendingB (s : ManagerState) (pid : Option String) : Bool :=
  match explicitTrimmedId pid with
  | some eid => (getSnapshotM s eid).isSome
  | none => false

/-- The record the request flow creates. -/
def flowRecord (request : ApprovalRequestPayload) (timeoutMs : Nat)
    (pid : Option String) (now : Nat) (freshId : String) : ApprovalRecord :=
  createRecord request timeoutMs (explicitTrimmedId pid) now freshId

/-- C10: a trimmed non-empty caller id that is already pending is rejected
before anything is created or registered; otherwise the id of the created record
is the trimmed explicit id when non-empty (else the fresh generated id), the
id is registered exactly once, and — given distinct generated ids — the
pending map keeps pairwise-distinct ids with no existing entry displaced. -/
theorem create_reserves_id (s : ManagerState) (pid : Option String)
    (request : ApprovalRequestPayload) (timeoutMs now : Nat) (freshId : String)
    (hnodup : (pendingKeys s.pending).Nodup)
    (hfresh : freshId ∉ pendingKeys s.pending) :
    (explicitPendingB s pid = true →
      approvalRequestFlow s pid request timeoutMs now freshId =
        .error "approval id already pending")
    ∧ (explicitPendingB s pid = false →
      approvalRequestFlow s pid request timeoutMs now freshId =
        .ok (flowRecord request timeoutMs pid now freshId,
             waitRegister s (flowRecord request timeoutMs pid now freshId))
      ∧ (flowRecord request timeoutMs pid now freshId).id =
          (explicitTrimmedId pid).getD freshId
      ∧ (flowRecord request timeoutMs pid now freshId).createdAtMs = now
      ∧ (flowRecord request timeoutMs pid now freshId).expiresAtMs = now + timeoutMs
      ∧ pendingKeys (waitRegister s (flowRecord request timeoutMs pid now freshId)).pending =
          pendingKeys s.pending ++ [(flowRecord request timeoutMs pid now freshId).id]
      ∧ (pendingKeys (waitRegister s (flowRecord request timeoutMs pid now freshId)).pending).Nodup
      ∧ mapGetP (waitRegister s (flowRecord request timeoutMs pid now freshId)).pending
          (flowRecord request timeoutMs pid now freshId).id =
          some ⟨flowRecord request timeoutMs pid now freshId⟩) := by
  have hflow : approvalRequestFlow s pid request timeoutMs now freshId =
      (match explicitTrimmedId pid with
       | some eid =>
           if (getSnapshotM s eid).isSome then .error "approval id already pending"
           else .ok (createRecord request timeoutMs (some eid) now freshId,
                     waitRegister s (createRecord request timeoutMs (some eid) now freshId))
       | none => .ok (createRecord request timeoutMs none now freshId,
                      waitRegister s (createRecord request timeoutMs none now freshId))) := by
    cases pid with
    | none => rfl
    | some i => rfl
  have hid : ∀ eid, explicitTrimmedId pid = some eid →
      (createRecord request timeoutMs (some eid) now freshId).id = eid := by
    intro eid he
    cases pid with
    | none => cases he
    | some i =>
        rw [show explicitTrimmedId (some i) =
            (if 0 < (jsTrimStr i).length then some (jsTrimStr i) else none) from rfl] at he
        by_cases hi : 0 < (jsTrimStr i).length
        · rw [if_pos hi] at he
          injection he with he2
          subst he2
          unfold createRecord
          dsimp only
          rw [jsTrimStr_idem i, if_pos hi]
        · rw [if_neg hi] at he
          cases he
  constructor
  · intro hpend
    unfold explicitPendingB at hpend
    cases het : explicitTrimmedId pid with
    | none => rw [het] at hpend; cases hpend
    | some eid =>
        rw [het] at hpend
        have hp2 : (getSnapshotM s eid).isSome = true := hpend
        rw [hflow, het]
        exact if_pos hp2
  · intro hnotpend
    unfold explicitPendingB at hnotpend
    have hrec : flowRecord request timeoutMs pid now freshId =
        createRecord request timeoutMs (explicitTrimmedId pid) now freshId := rfl
    have hidg : (flowRecord request timeoutMs pid now freshId).id =
        (explicitTrimmedId pid).getD freshId := by
      cases het : explicitTrimmedId pid with
      | none => rw [hrec, het]; rfl
      | some eid => rw [hrec, het]; simpa using hid eid het
    have hnotmem : (flowRecord request timeoutMs pid now freshId).id ∉ pendingKeys s.pending := by
      rw [hidg]
      cases het : explicitTrimmedId pid with
      | none => simpa using hfresh
      | some eid =>
          rw [het] at hnotpend
          have hnp : (getSnapshotM s eid).isSome = false := hnotpend
          simp only [Option.getD_some]
          apply mapGetP_none_not_mem
          unfold getSnapshotM at hnp
          cases hg : mapGetP s.pending eid with
          | none => rfl
          | some e => rw [hg] at hnp; cases hnp
  -- assemble
    have hok : approvalRequestFlow s pid request timeoutMs now freshId =
        .ok (flowRecord request timeoutMs pid now freshId,
             waitRegister s (flowRecord request timeoutMs pid now freshId)) := by
      rw [hflow]
      cases het : explicitTrimmedId pid with
      | none => rw [hrec, het]
      | some eid =>
          rw [het] at hnotpend
          have hnp : (getSnapshotM s eid).isSome = false := hnotpend
          rw [hrec, het]
          exact if_neg (by simp [hnp])
    have hkeys : pendingKeys (waitRegister s (flowRecord request timeoutMs pid now freshId)).pending =
        pendingKeys s.pending ++ [(flowRecord request timeoutMs pid now freshId).id] := by
      unfold waitRegister
      exact mapSetP_keys_of_not_mem s.pending _ _ hnotmem
    refine ⟨hok, hidg, ?_, ?_, hkeys, ?_, ?_⟩
    · cases het : explicitTrimmedId pid <;> rw [hrec, het] <;> rfl
    · cases het : explicitTrimmedId pid <;> rw [hrec, het] <;> rfl
    · rw [hkeys]
      simp [List.nodup_append, hnodup, hnotmem]
    · unfold waitRegister
      exact mapGetP_setP_self s.pending _ _

/-- Witness for `create_reserves_id`: an explicit id " req-1 " on an empty
manager is trimmed, accepted and registered. -/
theorem create_reserves_id_witness :
    (explicitPendingB emptyManager (some " req-1 ") = true →
      approvalRequestFlow emptyManager (some " req-1 ") samplePayload 1000 50 "u-1" =
        .error "approval id already pending")
    ∧ (explicitPendingB emptyManager (some " req-1 ") = false →
      approvalRequestFlow emptyManager (some " req-1 ") samplePayload 1000 50 "u-1" =
        .ok (flowRecord samplePayload 1000 (some " req-1 ") 50 "u-1",
             waitRegister emptyManager (flowRecord samplePayload 1000 (some " req-1 ") 50 "u-1"))
      ∧ (flowRecord samplePayload 1000 (some " req-1 ") 50 "u-1").id =
          (explicitTrimmedId (some " req-1 ")).getD "u-1"
      ∧ (flowRecord samplePayload 1000 (some " req-1 ") 50 "u-1").createdAtMs = 50
      ∧ (flowRecord samplePayload 1000 (some " req-1 ") 50 "u-1").expiresAtMs = 50 + 1000
      ∧ pendingKeys (waitRegister emptyManager
          (flowRecord samplePayload 1000 (some " req-1 ") 50 "u-1")).pending =
          pendingKeys emptyManager.pending ++
            [(flowRecord samplePayload 1000 (some " req-1 ") 50 "u-1").id]
      ∧ (pendingKeys (waitRegister emptyManager
          (flowRecord samplePayload 1000 (some " req-1 ") 50 "u-1")).pending).Nodup
      ∧ mapGetP (waitRegister emptyManager
          (flowRecord samplePayload 1000 (some " req-1 ") 50 "u-1")).pending
          (flowRecord samplePayload 1000 (some " req-1 ") 50 "u-1").id =
          some ⟨flowRecord samplePayload 1000 (some " req-1 ") 50 "u-1"⟩) :=
  create_reserves_id emptyManager (some " req-1 ") samplePayload 1000 50 "u-1"
    (by simp [emptyManager, pendingKeys]) (by simp [emptyManager, pendingKeys])

/-- C8: a Tier-3 human `deny` and a `null` (timed-out/expired) wait resolve
to the same blocked result with reason "Denied by operator", leaving both
caches untouched — and consequently the whole hook behaves identically under
a timed-out and an explicitly denied human approval. -/
theorem deny_and_timeout_identical :
    (∀ (key : String) (task always : List String),
      resolveDecisionFn none key task always =
        (some { block := true, blockReason := some "Denied by operator" }, task, always)
      ∧ resolveDecisionFn (some .deny) key task always =
        (some { block := true, blockReason := some "Denied by operator" }, task, always))
    ∧ (∀ (p : GuardianHookParams) (eng : RegexEngine) (ev : HookEvent) (ctx : HookCtx)
        (task always : List String),
      guardianHandler { p with human := some none } eng ev ctx task always =
        guardianHandler { p with human := some (some .deny) } eng ev ctx task always) :=
  ⟨fun _ _ _ => ⟨rfl, rfl⟩, fun _ _ _ _ _ _ => rfl⟩

/-- C7: Tier-2 adjudication fails safe — a timed-out race, a thrown call and
a response in which neither parse route finds a valid decision all produce
`escalate` with a diagnostic reason (so never `allow`); the embedding is a
total function, mirroring that every throw site is inside the try/catch of
the evaluator. -/
theorem llm_failures_escalate :
    evaluateWithLLM .timeout =
      { decision := .escalate
      , reason := some "LLM evaluation failed: Error: LLM evaluation timed out" }
    ∧ (∀ msg, evaluateWithLLM (.callError msg) =
        { decision := .escalate, reason := some ("LLM evaluation failed: " ++ msg) })
    ∧ (∀ text, parseDecisionWhole (jsTrimStr text) = .ok none →
        evaluateWithLLM (.success text) =
          { decision := .escalate, reason := some "Could not parse LLM response" })
    ∧ (∀ text, parseDecisionWhole (jsTrimStr text) = .error () →
        parseDecisionFallback (jsTrimStr text) = none →
        evaluateWithLLM (.success text) =
          { decision := .escalate, reason := some "Could not parse LLM response" }) := by
  refine ⟨rfl, fun msg => rfl, ?_, ?_⟩
  · intro text hwhole
    show parseDecision text = _
    simp only [parseDecision]
    rw [hwhole]
  · intro text hwhole hfall
    show parseDecision text = _
    simp only [parseDecision]
    rw [hwhole, hfall]

/-- Witness for `llm_failures_escalate`: the non-JSON reply "hello" (both
parse routes fail) and the JSON-but-decision-free reply "42". -/
theorem llm_failures_escalate_witness :
    evaluateWithLLM (.success "hello") =
      { decision := .escalate, reason := some "Could not parse LLM response" }
    ∧ evaluateWithLLM (.success "42") =
      { decision := .escalate, reason := some "Could not parse LLM response" } :=
  ⟨(llm_failures_escalate.2.2.2) "hello" (by rfl) (by rfl),
   (llm_failures_escalate.2.2.1) "42" (by rfl)⟩

/-- The cache-independent observables of a hook outcome: the block/proceed
result, the budget tracker state and the instrumentation path. -/
def hookObs (o : HookOutcome) : Option HookResult × Option TrackerState × DecisionPath :=
  (o.result, o.tracker, o.path)

theorem resolveDecisionFn_fst (d : Option GuardianDecision) (key : String)
    (t1 a1 t2 a2 : List String) :
    (resolveDecisionFn d key t1 a1).1 = (resolveDecisionFn d key t2 a2).1 := by
  cases d with
  | none => rfl
  | some gd => cases gd <;> rfl

theorem guardianTier3_obs (p : GuardianHookParams) (key : String)
    (t1 a1 t2 a2 : List String) (tr : Option TrackerState) (rr : Option String) :
    hookObs (guardianTier3 p key t1 a1 tr rr) = hookObs (guardianTier3 p key t2 a2 tr rr) := by
  unfold guardianTier3
  cases p.human with
  | none => rfl
  | some hd =>
      simp only [hookObs]
      rw [resolveDecisionFn_fst hd key t1 a1 t2 a2]

theorem guardianTiers_obs (p : GuardianHookParams) (eng : RegexEngine) (ev : HookEvent)
    (ctx : HookCtx) (toolName : String) (agentId : Option String) (key : String)
    (t1 a1 t2 a2 : List String) (tracker : Option TrackerState) :
    (guardianTiers p eng ev ctx toolName agentId key t1 a1 tracker).map hookObs =
      (guardianTiers p eng ev ctx toolName agentId key t2 a2 tracker).map hookObs := by
  unfold guardianTiers
  dsimp only
  cases evaluateRulesE toolName ev.params (p.config.rules.getD [])
      (((agentLookup p.config (agentId.getD "")).bind (fun o => o.rules)).getD [])
      (effectiveThreshold p.config agentId)
      (resolveTrustLevel (ctx.senderIsOwner <|> p.senderIsOwner) p.isSubagent p.isAllowed)
      eng with
  | error e => rfl
  | ok rr =>
      dsimp only
      by_cases h1 : rr.decision = .allow
      · rw [if_pos h1, if_pos h1]
        rfl
      · rw [if_neg h1, if_neg h1]
        by_cases h2 : rr.decision = .deny
        · rw [if_pos h2, if_pos h2]
          rfl
        · rw [if_neg h2, if_neg h2]
          cases p.llm with
          | none =>
              simp only [Except.map]
              rw [guardianTier3_obs p key t1 a1 t2 a2 tracker rr.reason]
          | some outcome =>
              dsimp only
              by_cases h3 : (evaluateWithLLM outcome).decision = .allow
              · rw [if_pos h3, if_pos h3]
                rfl
              · rw [if_neg h3, if_neg h3]
                by_cases h4 : (evaluateWithLLM outcome).decision = .deny
                · rw [if_pos h4, if_pos h4]
                  rfl
                · rw [if_neg h4, if_neg h4]
                  simp only [Except.map]
                  rw [guardianTier3_obs p key t1 a1 t2 a2 tracker rr.reason]

theorem mem_setAdd (k key1 : String) (s : List String) :
    k ∈ setAdd s key1 ↔ k ∈ s ∨ k = key1 := by
  unfold setAdd
  split
  · constructor
    · exact fun h => Or.inl h
    · rintro (h | h)
      · exact h
      · subst h; assumption
  · simp [List.mem_append]

/-- Hook observables depend on the two caches only through whether the
key of the current call is cached. -/
theorem handler_obs_cache_indep (p : GuardianHookParams) (eng : RegexEngine)
    (ev : HookEvent) (ctx : HookCtx) (t1 a1 t2 a2 : List String)
    (hmem : (cacheKey (normalizeToolName ev.toolName) ev.params ∈ a1 ∨
             cacheKey (normalizeToolName ev.toolName) ev.params ∈ t1) ↔
            (cacheKey (normalizeToolName ev.toolName) ev.params ∈ a2 ∨
             cacheKey (normalizeToolName ev.toolName) ev.params ∈ t2)) :
    (guardianHandler p eng ev ctx t1 a1).map hookObs =
      (guardianHandler p eng ev ctx t2 a2).map hookObs := by
  unfold guardianHandler
  by_cases hen : p.config.enabled ≠ some true
  · rw [if_pos hen, if_pos hen]
    rfl
  · rw [if_neg hen, if_neg hen]
    simp only []
    by_cases hc : (cacheKey (normalizeToolName ev.toolName) ev.params ∈ a1 ∨
        cacheKey (normalizeToolName ev.toolName) ev.params ∈ t1)
    · rw [if_pos hc, if_pos (hmem.mp hc)]
      rfl
    · rw [if_neg hc, if_neg (fun h2 => hc (hmem.mpr h2))]
      cases p.tracker with
      | none => exact guardianTiers_obs p eng ev ctx _ _ _ t1 a1 t2 a2 none
      | some t =>
          simp only []
          by_cases hex : (checkBudgetT (normalizeToolName ev.toolName)
              (effectiveBudget p.config (ctx.agentId <|> p.agentId)) t
              (ctx.agentId <|> p.agentId)).exceeded = true
          · rw [if_pos hex, if_pos hex]
            by_cases hact : (checkBudgetT (normalizeToolName ev.toolName)
                (effectiveBudget p.config (ctx.agentId <|> p.agentId)) t
                (ctx.agentId <|> p.agentId)).action = some .deny
            · rw [if_pos hact, if_pos hact]
              rfl
            · rw [if_neg hact, if_neg hact]
              cases p.human with
              | none => rfl
              | some hd =>
                  simp only [Except.map, hookObs]
                  rw [resolveDecisionFn_fst hd _ t1 a1 t2 a2]
          · rw [if_neg hex, if_neg hex]
            exact guardianTiers_obs p eng ev ctx _ _ _ t1 a1 t2 a2 (some t)

/-- C9 (amended): caching an allow under a key different from the cache key
of the evaluated call never changes its observable outcome (result, tracker,
path) — for both the session and the permanent cache. -/
theorem cache_key_isolation (p : GuardianHookParams) (eng : RegexEngine)
    (ev : HookEvent) (ctx : HookCtx) (task always : List String) (key1 : String)
    (hne : key1 ≠ cacheKey (normalizeToolName ev.toolName) ev.params) :
    (guardianHandler p eng ev ctx (setAdd task key1) always).map hookObs =
      (guardianHandler p eng ev ctx task always).map hookObs
    ∧ (guardianHandler p eng ev ctx task (setAdd always key1)).map hookObs =
      (guardianHandler p eng ev ctx task always).map hookObs := by
  constructor
  · apply handler_obs_cache_indep
    rw [mem_setAdd]
    constructor
    · rintro (h | h | h)
      · exact Or.inl h
      · exact Or.inr h
      · exact absurd h.symm hne
    · rintro (h | h)
      · exact Or.inl h
      · exact Or.inr (Or.inl h)
  · apply handler_obs_cache_indep
    rw [mem_setAdd]
    constructor
    · rintro (h | h)
      · rcases h with h | h
        · exact Or.inl h
        · exact absurd h.symm hne
      · exact Or.inr h
    · rintro (h | h)
      · exact Or.inl (Or.inl h)
      · exact Or.inr h

def c9params1 : List (String × JSValue) := [("a=1&b", .vStr "x")]

def c9params2 : List (String × JSValue) := [("a", .vNum 1), ("b", .vStr "x")]

def pSess : GuardianHookParams :=
  { config := { enabled := some true }, human := some (some .allowSession) }

def pDeny2 : GuardianHookParams :=
  { config := { enabled := some true }, human := some (some .deny) }

/-- C9 counterexample: two DISTINCT parameter maps whose cache keys collide
(the unescaped `=`/`&` separators let a crafted key inject a boundary), so a
session-allow cached for the first map silently approves the second: the
identical second call is blocked by the operator when evaluated fresh, but
proceeds via the cache populated by the approval of the first map. -/
theorem cache_key_collision :
    c9params1 ≠ c9params2
    ∧ cacheKey "exec" c9params1 = cacheKey "exec" c9params2
    ∧ guardianHandler pSess engFalse ⟨"exec", c9params1⟩ {} [] [] =
        .ok { result := none, taskCache := [cacheKey "exec" c9params1], alwaysCache := []
            , tracker := none, path := .tier3Human }
    ∧ guardianHandler pDeny2 engFalse ⟨"exec", c9params2⟩ {} [] [] =
        .ok { result := some { block := true, blockReason := some "Denied by operator" }
            , taskCache := [], alwaysCache := [], tracker := none, path := .tier3Human }
    ∧ guardianHandler pDeny2 engFalse ⟨"exec", c9params2⟩ {} [cacheKey "exec" c9params1] [] =
        .ok { result := none, taskCache := [cacheKey "exec" c9params1], alwaysCache := []
            , tracker := none, path := .cacheHit } :=
  ⟨fun h => by simpa [c9params1, c9params2] using congrArg List.length h, rfl, rfl, rfl, rfl⟩

/-- Witness for `cache_key_isolation`: caching an unrelated key leaves the
observables of an `exec` call unchanged. -/
theorem cache_key_isolation_witness :
    (guardianHandler pDeny2 engFalse ⟨"exec", c9params2⟩ {} (setAdd [] "other:k=1") []).map hookObs =
      (guardianHandler pDeny2 engFalse ⟨"exec", c9params2⟩ {} [] []).map hookObs
    ∧ (guardianHandler pDeny2 engFalse ⟨"exec", c9params2⟩ {} [] (setAdd [] "other:k=1")).map hookObs =
      (guardianHandler pDeny2 engFalse ⟨"exec", c9params2⟩ {} [] []).map hookObs :=
  cache_key_isolation pDeny2 engFalse ⟨"exec", c9params2⟩ {} [] [] "other:k=1" (by decide)

theorem guardianTier3_cost (p : GuardianHookParams) (key : String)
    (task always : List String) (t : TrackerState) (rrReason : Option String)
    (toolName : String) (agentId : Option String) :
    ((guardianTier3 p key task always (some t) rrReason).result ≠ none →
      (guardianTier3 p key task always (some t) rrReason).tracker = some t)
    ∧ (((guardianTier3 p key task always (some t) rrReason).path = .tier1Allow ∨
        (guardianTier3 p key task always (some t) rrReason).path = .tier2Allow) →
        (guardianTier3 p key task always (some t) rrReason).result = none ∧
        (guardianTier3 p key task always (some t) rrReason).tracker =
          some (recordToolCostT toolName (effectiveBudget p.config agentId) t agentId))
    ∧ ((guardianTier3 p key task always (some t) rrReason).path = .tier3Human →
        (guardianTier3 p key task always (some t) rrReason).tracker = some t)
    ∧ ((guardianTier3 p key task always (some t) rrReason).path ≠ .cacheHit ∧
       (guardianTier3 p key task always (some t) rrReason).path ≠ .budgetEscalateHuman ∧
       (guardianTier3 p key task always (some t) rrReason).path ≠ .disabled) := by
  unfold guardianTier3
  cases p.human with
  | none => exact ⟨fun _ => rfl, by simp, by simp, by simp⟩
  | some hd => exact ⟨fun _ => rfl, by simp, fun _ => rfl, by simp⟩

theorem guardianTiers_cost (p : GuardianHookParams) (eng : RegexEngine) (ev : HookEvent)
    (ctx : HookCtx) (toolName : String) (agentId : Option String) (key : String)
    (task always : List String) (t : TrackerState) (o : HookOutcome)
    (h : guardianTiers p eng ev ctx toolName agentId key task always (some t) = .ok o) :
    (o.result ≠ none → o.tracker = some t)
    ∧ ((o.path = .tier1Allow ∨ o.path = .tier2Allow) →
        o.result = none ∧
        o.tracker = some (recordToolCostT toolName (effectiveBudget p.config agentId) t agentId))
    ∧ (o.path = .tier3Human → o.tracker = some t)
    ∧ (o.path ≠ .cacheHit ∧ o.path ≠ .budgetEscalateHuman ∧ o.path ≠ .disabled) := by
  unfold guardianTiers at h
  dsimp only at h
  cases he : evaluateRulesE toolName ev.params (p.config.rules.getD [])
      (((agentLookup p.config (agentId.getD "")).bind (fun o => o.rules)).getD [])
      (effectiveThreshold p.config agentId)
      (resolveTrustLevel (ctx.senderIsOwner <|> p.senderIsOwner) p.isSubagent p.isAllowed)
      eng with
  | error e => rw [he] at h; cases h
  | ok rr =>
      rw [he] at h
      dsimp only at h
      by_cases h1 : rr.decision = .allow
      · rw [if_pos h1] at h
        injection h with h2
        subst h2
        refine ⟨fun hr => absurd rfl hr, fun _ => ⟨rfl, rfl⟩, ?_, by simp⟩
        intro hp
        cases hp
      · rw [if_neg h1] at h
        by_cases h2 : rr.decision = .deny
        · rw [if_pos h2] at h
          injection h with h3
          subst h3
          exact ⟨fun _ => rfl, by simp, by simp, by simp⟩
        · rw [if_neg h2] at h
          split at h
          next outcome hllm =>
              by_cases h3 : (evaluateWithLLM outcome).decision = .allow
              · rw [if_pos h3] at h
                injection h with h4
                subst h4
                refine ⟨fun hr => absurd rfl hr, fun _ => ⟨rfl, rfl⟩, ?_, by simp⟩
                intro hp
                cases hp
              · rw [if_neg h3] at h
                by_cases h4 : (evaluateWithLLM outcome).decision = .deny
                · rw [if_pos h4] at h
                  injection h with h5
                  subst h5
                  exact ⟨fun _ => rfl, by simp, by simp, by simp⟩
                · rw [if_neg h4] at h
                  injection h with h5
                  subst h5
                  exact guardianTier3_cost p key task always t rr.reason toolName agentId
          next hllm =>
              injection h with h3
              subst h3
              exact guardianTier3_cost p key task always t rr.reason toolName agentId

/-- C1 (amended): with a budget tracker configured, cost is recorded — into
the global and agent-specific session and daily totals, via `recordToolCost`
— exactly on the cache-hit, Tier-1-allow and Tier-2-allow proceed paths;
blocked or denied calls never record, and a call that proceeds through a
Tier-3 human approval (or a budget-escalation approval) leaves the tracker
unchanged. -/
theorem cost_recording (p : GuardianHookParams) (eng : RegexEngine) (ev : HookEvent)
    (ctx : HookCtx) (task always : List String) (t : TrackerState) (o : HookOutcome)
    (htr : p.tracker = some t)
    (h : guardianHandler p eng ev ctx task always = .ok o) :
    (o.result ≠ none → o.tracker = some t)
    ∧ ((o.path = .cacheHit ∨ o.path = .tier1Allow ∨ o.path = .tier2Allow) →
        o.result = none ∧
        o.tracker = some (recordToolCostT (normalizeToolName ev.toolName)
          (effectiveBudget p.config (ctx.agentId <|> p.agentId)) t
          (ctx.agentId <|> p.agentId)))
    ∧ ((o.path = .tier3Human ∨ o.path = .budgetEscalateHuman) → o.tracker = some t) := by
  unfold guardianHandler at h
  by_cases hen : p.config.enabled ≠ some true
  · rw [if_pos hen] at h
    injection h with h1
    subst h1
    exact ⟨fun hr => absurd rfl hr, by simp, by simp⟩
  · rw [if_neg hen] at h
    dsimp only at h
    by_cases hc : (cacheKey (normalizeToolName ev.toolName) ev.params ∈ always ∨
        cacheKey (normalizeToolName ev.toolName) ev.params ∈ task)
    · rw [if_pos hc] at h
      injection h with h1
      subst h1
      refine ⟨fun hr => absurd rfl hr, fun _ => ⟨rfl, ?_⟩, by simp⟩
      show recordCostIfEnabledM p.config (normalizeToolName ev.toolName)
          (ctx.agentId <|> p.agentId) p.tracker = _
      rw [htr]
      rfl
    · rw [if_neg hc] at h
      split at h
      next t2 htr2 =>
          rw [htr] at htr2
          injection htr2 with ht2
          subst ht2
          by_cases hex : (checkBudgetT (normalizeToolName ev.toolName)
              (effectiveBudget p.config (ctx.agentId <|> p.agentId)) t
              (ctx.agentId <|> p.agentId)).exceeded = true
          · rw [if_pos hex] at h
            by_cases hact : (checkBudgetT (normalizeToolName ev.toolName)
                (effectiveBudget p.config (ctx.agentId <|> p.agentId)) t
                (ctx.agentId <|> p.agentId)).action = some .deny
            · rw [if_pos hact] at h
              injection h with h1
              subst h1
              exact ⟨fun _ => rfl, by simp, by simp⟩
            · rw [if_neg hact] at h
              split at h
              next hd hhum =>
                  injection h with h1
                  subst h1
                  exact ⟨fun _ => rfl, by simp, fun _ => rfl⟩
              next hhum =>
                  injection h with h1
                  subst h1
                  exact ⟨fun _ => rfl, by simp, by simp⟩
          · rw [if_neg hex] at h
            obtain ⟨c1, c2, c3, c4⟩ := guardianTiers_cost p eng ev ctx
              (normalizeToolName ev.toolName) (ctx.agentId <|> p.agentId)
              (cacheKey (normalizeToolName ev.toolName) ev.params) task always t o h
            refine ⟨c1, ?_, ?_⟩
            · rintro (hp | hp | hp)
              · exact absurd hp c4.1
              · exact c2 (Or.inl hp)
              · exact c2 (Or.inr hp)
            · rintro (hp | hp)
              · exact c3 hp
              · exact absurd hp c4.2.1
      next htr2 =>
          rw [htr] at htr2
          exact Option.noConfusion htr2

def pC1w : GuardianHookParams :=
  { config := { enabled := some true, approvalThreshold := some .high
              , rules := some [{ tool := some "exec", action := some .escalate
                               , label := some "escalate exec" }] }
  , human := some (some .allowOnce), tracker := some emptyTracker }

/-- Witness for `cost_recording`: a tracker-configured hook whose call is
approved by the human at Tier 3 — the call proceeds and the tracker state is
unchanged. -/
theorem cost_recording_witness :
    (({ result := none, taskCache := [], alwaysCache := []
      , tracker := some emptyTracker, path := .tier3Human } : HookOutcome).result ≠ none →
      ({ result := none, taskCache := [], alwaysCache := []
       , tracker := some emptyTracker, path := .tier3Human } : HookOutcome).tracker =
        some emptyTracker)
    ∧ ((({ result := none, taskCache := [], alwaysCache := []
         , tracker := some emptyTracker, path := .tier3Human } : HookOutcome).path = .cacheHit ∨
        ({ result := none, taskCache := [], alwaysCache := []
         , tracker := some emptyTracker, path := .tier3Human } : HookOutcome).path = .tier1Allow ∨
        ({ result := none, taskCache := [], alwaysCache := []
         , tracker := some emptyTracker, path := .tier3Human } : HookOutcome).path = .tier2Allow) →
        ({ result := none, taskCache := [], alwaysCache := []
         , tracker := some emptyTracker, path := .tier3Human } : HookOutcome).result = none ∧
        ({ result := none, taskCache := [], alwaysCache := []
         , tracker := some emptyTracker, path := .tier3Human } : HookOutcome).tracker =
          some (recordToolCostT (normalizeToolName "exec")
            (effectiveBudget pC1w.config (HookCtx.agentId {} <|> pC1w.agentId)) emptyTracker
            (HookCtx.agentId {} <|> pC1w.agentId)))
    ∧ ((({ result := none, taskCache := [], alwaysCache := []
         , tracker := some emptyTracker, path := .tier3Human } : HookOutcome).path = .tier3Human ∨
        ({ result := none, taskCache := [], alwaysCache := []
         , tracker := some emptyTracker, path := .tier3Human } : HookOutcome).path = .budgetEscalateHuman) →
        ({ result := none, taskCache := [], alwaysCache := []
         , tracker := some emptyTracker, path := .tier3Human } : HookOutcome).tracker =
          some emptyTracker) :=
  cost_recording pC1w engFalse ⟨"exec", [("command", .vStr "ls")]⟩ {} [] [] emptyTracker
    { result := none, taskCache := [], alwaysCache := []
    , tracker := some emptyTracker, path := .tier3Human } (by rfl) (by rfl)

def pC1ce : GuardianHookParams :=
  { config := { enabled := some true, approvalThreshold := some .high
              , rules := some [{ tool := some "exec", action := some .escalate
                               , label := some "escalate exec" }]
              , budget := some { enabled := some true
                               , defaultToolCost := some ((1 : Rat) / 100) } }
  , human := some (some .allowOnce), tracker := some emptyTracker }

/-- C1 counterexample: with a budget tracker configured and the budget
enabled, an `exec` call approved by the human at Tier 3 ultimately proceeds
(`result = none`) yet the tracker is unchanged — recording the cost of the call
would have changed it — so cost is NOT recorded on every call that proceeds. -/
theorem cost_recording_counterexample :
    guardianHandler pC1ce engFalse ⟨"exec", [("command", JSValue.vStr "ls")]⟩ {} [] [] =
      .ok { result := none, taskCache := [], alwaysCache := []
          , tracker := some emptyTracker, path := .tier3Human }
    ∧ recordToolCostT "exec" (effectiveBudget pC1ce.config none) emptyTracker none ≠
        emptyTracker := by
  constructor
  · rfl
  · intro hcontra
    have h1 := congrArg TrackerState.sessionTotal hcontra
    simp only [recordToolCostT, recordCostT, resolveToolCost, effectiveBudget, truthyAgent,
      emptyTracker, pC1ce] at h1
    norm_num at h1
